import Mathlib

/-!
Shallow embedding of the unified metrics and churn-classification engine of the
New-Enrolments-and-Renewal dashboard (src/utils/unifiedDataProcessor.ts and the
renewal-parsing part of src/services/googleSheetsApi.ts), together with proofs
about the claims of the specification.

Modelling conventions:
* a JavaScript Date is modelled by its timestamp in milliseconds (a natural
  number, UTC assumed), so date-fns isAfter/isBefore become strict comparisons
  on Nat and addDays n adds n * 86400000;
* JavaScript numbers holding money and percentages are modelled by rationals;
* optional fields become Option; array order is preserved everywhere, and the
  insertion-order semantics of JavaScript Map and Set are modelled by
  association lists and first-occurrence deduplication;
* the in-place mutation that buildStudentMap performs on the objects of the
  caller array is modelled by a heap: the list of student objects is threaded
  through and returned, so that aliasing effects on the inputs are observable.
-/

set_option maxRecDepth 10000
set_option autoImplicit false

/-- One JavaScript day in milliseconds; addDays d 45 is d + 45 * dayMs. -/
def dayMs : Nat := 86400000

/-- JavaScript setHours(0,0,0,0): truncate a timestamp to the start of its day. -/
def normalizeStart (t : Nat) : Nat := t / dayMs * dayMs

/-- JavaScript setHours(23,59,59,999): last millisecond of the day of t. -/
def normalizeEnd (t : Nat) : Nat := t / dayMs * dayMs + (dayMs - 1)

/-- Split a character list at every occurrence of the separator, keeping empty
segments: the semantics of the JavaScript String.prototype.split. -/
def splitOnCharList (sep : Char) : List Char → List (List Char)
  | [] => [[]]
  | c :: rest =>
    match splitOnCharList sep rest with
    | [] => [[c]]
    | h :: t => if c = sep then [] :: h :: t else (c :: h) :: t

/-- JavaScript String.prototype.split with a one-character separator. -/
def strSplitOnChar (sep : Char) (s : String) : List String :=
  (splitOnCharList sep s.toList).map fun l => String.mk l

/-- JavaScript Array.prototype.join. -/
def joinWith (sep : String) : List String → String
  | [] => ""
  | [x] => x
  | x :: xs => x ++ sep ++ joinWith sep xs

/-- Does the first list start with the second one. -/
def startsWithList : List Char → List Char → Bool
  | _, [] => true
  | [], _ :: _ => false
  | a :: as, b :: bs => a = b && startsWithList as bs

/-- Substring containment on character lists. -/
def containsList : List Char → List Char → Bool
  | [], needle => needle.isEmpty
  | c :: rest, needle => startsWithList (c :: rest) needle || containsList rest needle

/-- JavaScript String.prototype.includes. -/
def strIncludes (s sub : String) : Bool :=
  containsList s.toList sub.toList

/-- JavaScript a || b for optional strings (empty string is falsy). -/
def jsOrOptStr (incoming old : Option String) : Option String :=
  match incoming with
  | none => old
  | some s => if s = "" then old else some s

/-- Insertion-order deduplication, as produced by Array.from(new Set(xs)). -/
def dedupKeepFirst {α : Type} [DecidableEq α] (l : List α) : List α :=
  l.foldl (fun acc x => if x ∈ acc then acc else acc ++ [x]) []

/-- Math.max over the renewal-date list: the latest renewal, none when empty. -/
def latestRenewal (l : List Nat) : Option Nat :=
  match l with
  | [] => none
  | x :: xs => some (xs.foldl Nat.max x)

/-- Math.round: round half toward positive infinity. -/
def jsRound (x : ℚ) : ℤ := ⌊x + 1/2⌋

/-- Math.round(x * 10) / 10: round to one decimal place. -/
def roundTo1 (x : ℚ) : ℚ := ((jsRound (x * 10) : ℤ) : ℚ) / 10

/-- renewal.package?.includes LTV — detects the lifetime-package marker. -/
def hasLTVPackage (p : Option String) : Bool :=
  match p with
  | some s => strIncludes s "LTV"
  | none => false

/-- The Student record of src/types (enrollment-derived row, possibly merged). -/
structure Student where
  id : String
  name : String := ""
  email : Option String := none
  phone : Option String := none
  activities : List String := []
  activity : Option String := none
  courseCategories : List String := []
  enrollmentDate : Nat := 0
  renewalDates : List Nat := []
  endDate : Option Nat := none
  enrolledEndDate : Option Nat := none
  isActive : Bool := false
  isStrikeOff : Bool := false
  fees : Option ℚ := none
  package : Option String := none
  source : Option String := none
deriving DecidableEq, Repr

/-- The RenewalRecord of src/types (one renewal-sheet row). -/
structure RenewalRecord where
  id : String
  name : String := ""
  email : Option String := none
  phone : Option String := none
  activities : String := ""
  renewalDate : Option Nat := none
  endDate : Option Nat := none
  package : Option String := none
  fees : ℚ := 0
  source : String := ""
deriving DecidableEq, Repr

/-- StudentWithLTV: a student together with the computed lifetime value. -/
structure StudentWithLTV extends Student where
  lifetimeValue : ℚ
  studentId : String
deriving DecidableEq, Repr

/-- DateRange of src/types/UnifiedTypes. -/
structure DateRange where
  startDate : Nat
  endDate : Nat
deriving DecidableEq, Repr

/-- UnifiedMetrics of src/types/UnifiedTypes: the snapshot output. -/
structure UnifiedMetrics where
  newEnrollments : Nat
  eligibleStudents : Nat
  renewedStudents : Nat
  churnedStudents : Nat
  inGraceStudents : Nat
  multiActivityStudents : Nat
  renewalPercentage : ℚ
  churnPercentage : ℚ
  retentionPercentage : ℚ
  netGrowthPercentage : ℚ
  lifetimeValue : ℚ
deriving DecidableEq, Repr

/-- MonthlyMetrics of src/types/UnifiedTypes: one monthly bucket. -/
structure MonthlyMetrics where
  month : String
  date : Nat
  startOfMonth : Nat
  newEnrollments : Nat
  renewals : Nat
  dropped : Nat
  endOfMonth : Int
  churnRate : ℚ
  retentionRate : ℚ
  netGrowthRate : ℚ
  renewalRate : ℚ
deriving DecidableEq, Repr

/-- Placeholder student used for out-of-range heap reads (never reached). -/
def dummyStudent : Student := { id := "" }

namespace UnifiedDataProcessor

/-- getBaseId of mergeStudentRecords: drop the second hyphen-separated segment
when the id has more than two segments. -/
def getBaseId (id : String) : String :=
  let parts := strSplitOnChar '-' id
  if parts.length > 2 then
    parts.headD "" ++ "-" ++ joinWith "-" (parts.drop 2)
  else
    id

/-- The field-merge step of mergeStudentRecords when a record with the same
base id already exists in the map. -/
def mergeInto (existing incoming : Student) : Student :=
  { existing with
    activities := dedupKeepFirst (existing.activities ++ incoming.activities)
    courseCategories :=
      dedupKeepFirst (existing.courseCategories ++ incoming.courseCategories)
    endDate :=
      match incoming.endDate, existing.endDate with
      | some d, none => some d
      | some d, some e => if e < d then some d else some e
      | none, e => e
    renewalDates := dedupKeepFirst (existing.renewalDates ++ incoming.renewalDates)
    fees := some (existing.fees.getD 0 + incoming.fees.getD 0)
    enrollmentDate :=
      if existing.enrollmentDate < incoming.enrollmentDate then
        incoming.enrollmentDate
      else
        existing.enrollmentDate
    name := if incoming.name = "" then existing.name else incoming.name
    email := jsOrOptStr incoming.email existing.email
    phone := jsOrOptStr incoming.phone existing.phone }

/-- One Map.set step of mergeStudentRecords: update in place when the base id
is present (keeping insertion order), append otherwise. -/
def mergeStep : List (String × Student) → String → Student → List (String × Student)
  | [], b, s => [(b, s)]
  | (k, e) :: rest, b, s =>
    if k = b then (k, mergeInto e s) :: rest else (k, e) :: mergeStep rest b s

/-- mergeStudentRecords: fold all records into a map keyed by base id and
return the values in insertion order. -/
def mergeStudentRecords (students : List Student) : List Student :=
  (students.foldl (fun m s => mergeStep m (getBaseId s.id) s) []).map (·.2)

/-- The churn filter used by calculateUnifiedMetrics and getChurnedStudents:
grace (endDate + 45 days) expired at now, no renewal strictly after endDate,
and endDate inside the normalized range. -/
def churnedFilter (sd ed now : Nat) (s : Student) : Bool :=
  match s.endDate with
  | none => false
  | some e =>
    let graceEndDate := e + 45 * dayMs
    let hasValidRenewal :=
      match latestRenewal s.renewalDates with
      | some l => decide (e < l)
      | none => false
    decide (graceEndDate < now) && !hasValidRenewal &&
      decide (sd ≤ e) && decide (e ≤ ed)

/-- The in-grace filter used by calculateUnifiedMetrics and getInGraceStudents:
now strictly between endDate and grace end, no renewal dated on or before the
grace end, and endDate inside the normalized range. -/
def inGraceFilter (sd ed now : Nat) (s : Student) : Bool :=
  match s.endDate with
  | none => false
  | some e =>
    let graceEndDate := e + 45 * dayMs
    let hasRenewal :=
      !s.renewalDates.isEmpty &&
        s.renewalDates.any (fun rd =>
          decide (rd < graceEndDate) || decide (rd = graceEndDate))
    decide (e < now) && decide (now < graceEndDate) && !hasRenewal &&
      decide (sd ≤ e) && decide (e ≤ ed)

/-- getStudentsWithLTV: attach lifetimeValue = fees (default 0) and studentId. -/
def getStudentsWithLTV (students : List Student) : List StudentWithLTV :=
  students.map fun s =>
    { toStudent := s, lifetimeValue := s.fees.getD 0, studentId := s.id }

/-- getChurnedStudents: filter by the churn rule and mark isActive false. -/
def getChurnedStudents (students : List Student) (dateRange : DateRange)
    (now : Nat) : List StudentWithLTV :=
  let sd := normalizeStart dateRange.startDate
  let ed := normalizeEnd dateRange.endDate
  let churned := students.filter (churnedFilter sd ed now)
  (getStudentsWithLTV churned).map fun s => { s with isActive := false }

/-- getInGraceStudents: filter by the in-grace rule. -/
def getInGraceStudents (students : List Student) (dateRange : DateRange)
    (now : Nat) : List StudentWithLTV :=
  let sd := normalizeStart dateRange.startDate
  let ed := normalizeEnd dateRange.endDate
  getStudentsWithLTV (students.filter (inGraceFilter sd ed now))

/-- Lookup in the id-to-heap-index association list of buildStudentMap. -/
def lookupIdx : List (String × Nat) → String → Option Nat
  | [], _ => none
  | (k, v) :: rest, key => if k = key then some v else lookupIdx rest key

/-- Map.set on an existing key: replace the value, keep the entry position. -/
def alistReplace : List (String × Nat) → String → Nat → List (String × Nat)
  | [], _, _ => []
  | (k, v) :: rest, key, nv =>
    if k = key then (k, nv) :: rest else (k, v) :: alistReplace rest key nv

/-- The first loop of buildStudentMap: keep, per id, the index of the record
with the latest enrollment date. The heap is the caller array (not mutated by
this loop); idx is the position of the current record. -/
def studentsLoop (all : List Student) : List Student → Nat →
    List (String × Nat) → List (String × Nat)
  | [], _, m => m
  | s :: rest, idx, m =>
    let m2 :=
      match lookupIdx m s.id with
      | some j =>
        if (all.getD j dummyStudent).enrollmentDate < s.enrollmentDate then
          alistReplace m s.id idx
        else m
      | none => m ++ [(s.id, idx)]
    studentsLoop all rest (idx + 1) m2

/-- The mutation buildStudentMap applies to a mapped student object when a
renewal record with the same id is processed. -/
def renewUpdate (s : Student) (r : RenewalRecord) : Student :=
  let s1 :=
    match r.endDate with
    | some re =>
      match s.endDate with
      | none => { s with endDate := some re }
      | some e => if e < re then { s with endDate := some re } else s
    | none => s
  let s2 := if hasLTVPackage r.package then { s1 with package := r.package } else s1
  let s3 :=
    match r.renewalDate with
    | some rd => if rd < s.enrollmentDate then { s2 with enrollmentDate := rd } else s2
    | none => s2
  match r.renewalDate with
  | some rd => { s3 with renewalDates := dedupKeepFirst (s.renewalDates ++ [rd]) }
  | none => s3

/-- The synthetic partial Student buildStudentMap creates for a renewal whose
id is not in the map (spread of the renewal record with overrides). -/
def synthStudent (r : RenewalRecord) : Student :=
  { id := r.id
    name := r.name
    email := r.email
    phone := r.phone
    activities := strSplitOnChar ',' r.activities
    activity := none
    courseCategories := []
    enrollmentDate := r.renewalDate.getD 0
    renewalDates := match r.renewalDate with | some rd => [rd] | none => []
    endDate := r.endDate
    enrolledEndDate := none
    isActive := false
    isStrikeOff := false
    fees := some r.fees
    package := r.package
    source := some r.source }

/-- The second loop of buildStudentMap: process renewals, mutating matched
heap entries in place and appending synthetic students for unmatched ids. -/
def renewalsLoop : List RenewalRecord → List Student → List (String × Nat) →
    List Student × List (String × Nat)
  | [], heap, m => (heap, m)
  | r :: rest, heap, m =>
    match lookupIdx m r.id with
    | some j => renewalsLoop rest (heap.set j (renewUpdate (heap.getD j dummyStudent) r)) m
    | none => renewalsLoop rest (heap ++ [synthStudent r]) (m ++ [(r.id, heap.length)])

/-- buildStudentMap: the resulting heap (whose prefix is the caller array
after mutation) and the id-to-index map. -/
def buildStudentMap (students : List Student) (renewals : List RenewalRecord) :
    List Student × List (String × Nat) :=
  renewalsLoop renewals students (studentsLoop students students 0 [])

/-- The values of the student map, in insertion order. -/
def mapValues (heap : List Student) (m : List (String × Nat)) : List Student :=
  m.map fun p => heap.getD p.2 dummyStudent

/-- The activity filter of getActiveStudentsAtDate: not yet expired, or inside
the grace window with no valid renewal, or carrying the LTV package marker.
A student without endDate passes only through the LTV marker. -/
def activeFilter (date : Nat) (s : Student) : Bool :=
  let hasLTV := hasLTVPackage s.package
  match s.endDate with
  | none => hasLTV
  | some e =>
    let graceEndDate := e + 45 * dayMs
    let hasValidRenewal :=
      match latestRenewal s.renewalDates with
      | some l => decide (e < l)
      | none => false
    decide (date < e) ||
      (decide (e < date) && decide (date < graceEndDate) && !hasValidRenewal) ||
      hasLTV

/-- getActiveStudentsAtDate. Besides the active list, it returns the caller
student array as left after the mutations performed by buildStudentMap. -/
def getActiveStudentsAtDate (students : List Student)
    (renewals : List RenewalRecord) (date : Nat) :
    List StudentWithLTV × List Student :=
  let hm := buildStudentMap students renewals
  let uniqueStudents := mapValues hm.1 hm.2
  let activeStudents := uniqueStudents.filter (activeFilter date)
  (getStudentsWithLTV activeStudents, hm.1.take students.length)

/-- Enrollment-sheet source tags accepted by the new-enrollment filters. -/
def sourceIsEnrollment (s : Option String) : Bool :=
  decide (s = some "FormResponses1") || decide (s = some "OldFormResponses1") ||
    decide (s = some "RazorpayEnrollments")

/-- Renewal-sheet source tags accepted by the renewal filters. -/
def sourceIsRenewal (s : String) : Bool :=
  decide (s = "Renewal") || decide (s = "HistoricalRenewal") ||
    decide (s = "RazorpayRenewals")

/-- The new-enrollments filter of calculateUnifiedMetrics. -/
def enrollmentInRange (sd ed : Nat) (s : Student) : Bool :=
  decide (sd ≤ s.enrollmentDate) && decide (s.enrollmentDate ≤ ed) &&
    sourceIsEnrollment s.source

/-- The renewals-in-range filter of calculateUnifiedMetrics. -/
def renewalInRange (sd ed : Nat) (r : RenewalRecord) : Bool :=
  match r.renewalDate with
  | some d => decide (sd ≤ d) && decide (d ≤ ed) && sourceIsRenewal r.source
  | none => false

/-- Eligible renewals: enrollment records whose enrolledEndDate is in range
plus renewal records whose endDate is in range. -/
def eligibleCount (students : List Student) (renewals : List RenewalRecord)
    (sd ed : Nat) : Nat :=
  (students.filter fun s =>
      match s.enrolledEndDate with
      | some e => decide (sd ≤ e) && decide (e ≤ ed)
      | none => false).length +
  (renewals.filter fun r =>
      match r.endDate with
      | some e => decide (sd ≤ e) && decide (e ≤ ed)
      | none => false).length

/-- Add one activity string to a per-student activity set, after the JS
truthiness and trim checks. -/
def addActivity (l : List String) (a : String) : List String :=
  if a = "" then l
  else
    let t := a.trim
    if t = "" then l
    else if t ∈ l then l else l ++ [t]

/-- Collect the activities of one record into the accumulated set. -/
def collectActivities (s : Student) (l : List String) : List String :=
  let l1 := s.activities.foldl addActivity l
  match s.activity with
  | some a => addActivity l1 a
  | none => l1

/-- One step of the per-id activity map of the multi-activity count. -/
def bumpActivities : List (String × List String) → Student →
    List (String × List String)
  | [], s => [(s.id, collectActivities s [])]
  | (k, acts) :: rest, s =>
    if k = s.id then (k, collectActivities s acts) :: rest
    else (k, acts) :: bumpActivities rest s

/-- The multi-activity count: ids whose collected activity set exceeds one. -/
def multiActivityCount (students : List Student) : Nat :=
  ((students.foldl bumpActivities []).filter fun p => p.2.length > 1).length

/-- calculateUnifiedMetrics. The second component is the caller student array
after the mutations performed (through buildStudentMap) on its records; the
lifetimeValue sum reads the mutated records, the counts computed earlier in
the body read the records as passed in, exactly as in the source. -/
def calculateUnifiedMetrics (students : List Student)
    (renewalStudents : List RenewalRecord) (dateRange : DateRange) (now : Nat) :
    UnifiedMetrics × List Student :=
  let startDate := normalizeStart dateRange.startDate
  let endDate := normalizeEnd dateRange.endDate
  let newEnrollments := (students.filter (enrollmentInRange startDate endDate)).length
  let totalRenewals := (renewalStudents.filter (renewalInRange startDate endDate)).length
  let eligibleRenewals := eligibleCount students renewalStudents startDate endDate
  let enrollmentStudents := students.filter (enrollmentInRange startDate endDate)
  let churned := students.filter (churnedFilter startDate endDate now)
  let inGrace := students.filter (inGraceFilter startDate endDate now)
  let multiActivityStudents := multiActivityCount enrollmentStudents
  let activeResult := getActiveStudentsAtDate students renewalStudents startDate
  let startOfPeriodCount := activeResult.1.length
  let renewalPercentage : ℚ :=
    if 0 < eligibleRenewals then
      ((totalRenewals : ℚ) / (eligibleRenewals : ℚ)) * 100
    else 0
  let churnPercentage : ℚ :=
    if 0 < startOfPeriodCount then
      ((churned.length : ℚ) / (startOfPeriodCount : ℚ)) * 100
    else 0
  let retentionPercentage : ℚ := 100 - churnPercentage
  let endOfPeriodCount : ℚ :=
    (startOfPeriodCount : ℚ) + (newEnrollments : ℚ) - (churned.length : ℚ)
  let netGrowthPercentage : ℚ :=
    if 0 < startOfPeriodCount then
      ((endOfPeriodCount - (startOfPeriodCount : ℚ)) / (startOfPeriodCount : ℚ)) * 100
    else 0
  let studentsInRange := activeResult.2.filter fun s =>
    decide (startDate ≤ s.enrollmentDate) && decide (s.enrollmentDate ≤ endDate)
  let lifetimeValue : ℚ := studentsInRange.foldl (fun acc s => acc + s.fees.getD 0) 0
  ({ newEnrollments := newEnrollments
     eligibleStudents := eligibleRenewals
     renewedStudents := totalRenewals
     churnedStudents := churned.length
     inGraceStudents := inGrace.length
     multiActivityStudents := multiActivityStudents
     renewalPercentage := roundTo1 renewalPercentage
     churnPercentage := roundTo1 churnPercentage
     retentionPercentage := roundTo1 retentionPercentage
     netGrowthPercentage := roundTo1 netGrowthPercentage
     lifetimeValue := lifetimeValue }, activeResult.2)

end UnifiedDataProcessor

/-- Civil (proleptic Gregorian) date to days since 1970-01-01; valid for dates
from 1970 on, which covers every timestamp handled by the dashboard. -/
def daysFromCivil (y m d : Nat) : Nat :=
  let y1 := if m ≤ 2 then y - 1 else y
  let era := y1 / 400
  let yoe := y1 % 400
  let mp := if m > 2 then m - 3 else m + 9
  let doy := (153 * mp + 2) / 5 + d - 1
  let doe := yoe * 365 + yoe / 4 - yoe / 100 + doy
  era * 146097 + doe - 719468

/-- Days since 1970-01-01 to civil (year, month, day). -/
def civilFromDays (z : Nat) : Nat × Nat × Nat :=
  let z2 := z + 719468
  let era := z2 / 146097
  let doe := z2 % 146097
  let yoe := (doe - doe / 1460 + doe / 36524 - doe / 146096) / 365
  let y := yoe + era * 400
  let doy := doe - (365 * yoe + yoe / 4 - yoe / 100)
  let mp := (5 * doy + 2) / 153
  let d := doy - (153 * mp + 2) / 5 + 1
  let m := if mp < 10 then mp + 3 else mp - 9
  (if m ≤ 2 then y + 1 else y, m, d)

/-- Civil date of a millisecond timestamp (UTC). -/
def msToCivil (t : Nat) : Nat × Nat × Nat := civilFromDays (t / dayMs)

/-- Gregorian leap year. -/
def isLeapYear (y : Nat) : Bool :=
  (y % 4 = 0 && y % 100 ≠ 0) || y % 400 = 0

/-- Days in a month. -/
def daysInMonth (y m : Nat) : Nat :=
  if m = 2 then (if isLeapYear y then 29 else 28)
  else if m = 4 || m = 6 || m = 9 || m = 11 then 30
  else 31

/-- date-fns startOfMonth on a timestamp: midnight of the first of its month. -/
def startOfMonthMs (t : Nat) : Nat :=
  let c := msToCivil t
  daysFromCivil c.1 c.2.1 1 * dayMs

/-- date-fns endOfMonth on a timestamp: last millisecond of its month. -/
def endOfMonthMs (t : Nat) : Nat :=
  let c := msToCivil t
  let next := if c.2.1 = 12 then (c.1 + 1, 1) else (c.1, c.2.1 + 1)
  daysFromCivil next.1 next.2 1 * dayMs - 1

/-- date-fns addMonths (and subMonths via a negative count): shift the month,
clamp the day of month, keep the time of day. -/
def addMonthsMs (t : Nat) (k : Int) : Nat :=
  let c := msToCivil t
  let tod := t % dayMs
  let total : Int := ((c.1 * 12 + (c.2.1 - 1) : Nat) : Int) + k
  let tN := total.toNat
  let y2 := tN / 12
  let m2 := tN % 12 + 1
  let d2 := min c.2.2 (daysInMonth y2 m2)
  daysFromCivil y2 m2 d2 * dayMs + tod

/-- date-fns differenceInCalendarMonths. -/
def diffCalendarMonths (a b : Nat) : Int :=
  let ca := msToCivil a
  let cb := msToCivil b
  ((ca.1 * 12 + ca.2.1 : Nat) : Int) - ((cb.1 * 12 + cb.2.1 : Nat) : Int)

/-- Three-letter month name, as produced by the MMM format token. -/
def monthName (m : Nat) : String :=
  [ "Jan", "Feb", "Mar", "Apr", "May", "Jun",
    "Jul", "Aug", "Sep", "Oct", "Nov", "Dec" ].getD (m - 1) ""

/-- format(t, MMM yyyy). -/
def formatMonth (t : Nat) : String :=
  let c := msToCivil t
  monthName c.2.1 ++ " " ++ toString c.1

namespace UnifiedDataProcessor

/-- One iteration of the month loop of calculateMonthlyTrends. -/
def monthlyBucket (students : List Student) (renewalStudents : List RenewalRecord)
    (rangeStart now : Nat) (i : Nat) : MonthlyMetrics :=
  let monthStart := addMonthsMs rangeStart (i : Int)
  let monthEnd := endOfMonthMs monthStart
  let prevMonthEnd := endOfMonthMs (addMonthsMs monthStart (-1))
  let startOfMonthStudents := students.filter fun s =>
    match s.endDate with
    | some e => decide (s.enrollmentDate ≤ prevMonthEnd) && decide (prevMonthEnd < e)
    | none => false
  let newEnrollments := students.filter fun s =>
    decide (monthStart ≤ s.enrollmentDate) && decide (s.enrollmentDate ≤ monthEnd)
  let renewalsInMonth := renewalStudents.filter (renewalInRange monthStart monthEnd)
  let dropped := students.filter (churnedFilter monthStart monthEnd now)
  let startCount := startOfMonthStudents.length
  let joinedCount := newEnrollments.length
  let renewalCount := renewalsInMonth.length
  let droppedCount := dropped.length
  let endCount : Int := (startCount : Int) + (joinedCount : Int) - (droppedCount : Int)
  let churnRate : ℚ :=
    if 0 < startCount then ((droppedCount : ℚ) / (startCount : ℚ)) * 100 else 0
  let retentionRate : ℚ := 100 - churnRate
  let netGrowthRate : ℚ :=
    if 0 < startCount then
      (((endCount : ℚ) - (startCount : ℚ)) / (startCount : ℚ)) * 100
    else 0
  let eligibleForRenewal := eligibleCount students renewalStudents monthStart monthEnd
  let renewedInMonth := (renewalStudents.filter (renewalInRange monthStart monthEnd)).length
  let renewalRate : ℚ :=
    if 0 < eligibleForRenewal then
      ((renewedInMonth : ℚ) / (eligibleForRenewal : ℚ)) * 100
    else 0
  { month := formatMonth monthStart
    date := monthStart
    startOfMonth := startCount
    newEnrollments := joinedCount
    renewals := renewalCount
    dropped := droppedCount
    endOfMonth := endCount
    churnRate := roundTo1 churnRate
    retentionRate := roundTo1 retentionRate
    netGrowthRate := roundTo1 netGrowthRate
    renewalRate := roundTo1 renewalRate }

/-- calculateMonthlyTrends: one bucket per calendar month from the month of the
range start to the month of the range end. -/
def calculateMonthlyTrends (students : List Student)
    (renewalStudents : List RenewalRecord) (dateRange : DateRange) (now : Nat) :
    List MonthlyMetrics :=
  let rangeStart := startOfMonthMs dateRange.startDate
  let rangeEnd := endOfMonthMs dateRange.endDate
  let monthCount := (diffCalendarMonths rangeEnd rangeStart + 1).toNat
  (List.range monthCount).map (monthlyBucket students renewalStudents rangeStart now)

end UnifiedDataProcessor

section ConcreteInputs

/-- A concrete expiration date: 2024-03-25. -/
def exE : Nat := daysFromCivil 2024 3 25 * dayMs

/-- A concrete evaluation instant well past the grace end: 2025-01-01. -/
def exNow : Nat := daysFromCivil 2025 1 1 * dayMs

/-- A wide date range containing every date of the examples. -/
def exRange : DateRange :=
  { startDate := 0, endDate := daysFromCivil 2030 1 1 * dayMs }

/-- Student whose only renewal is dated exactly endDate + 46 days. -/
def c1Student : Student :=
  { id := "IN-100-AB", enrollmentDate := daysFromCivil 2024 1 1 * dayMs,
    endDate := some exE, renewalDates := [exE + 46 * dayMs] }

/-- Student whose only renewal is dated exactly endDate + 45 days. -/
def c1aStudent : Student :=
  { id := "IN-100-AB", enrollmentDate := daysFromCivil 2024 1 1 * dayMs,
    endDate := some exE, renewalDates := [exE + 45 * dayMs] }

/-- Expired student with no renewal, matched by id by c2Renewal. -/
def c2Student : Student :=
  { id := "A", enrollmentDate := daysFromCivil 2024 1 1 * dayMs,
    endDate := some exE, source := some "FormResponses1" }

/-- Renewal sharing the id of c2Student, dated after the grace end. -/
def c2Renewal : RenewalRecord :=
  { id := "A", renewalDate := some (exE + 50 * dayMs), source := "Renewal" }

/-- First enrollment row of one person (base id IN-100-JDOE). -/
def c4A : Student :=
  { id := "IN-KB-100-JDOE", enrollmentDate := daysFromCivil 2024 1 1 * dayMs }

/-- Second enrollment row of the same person, enrolled one month later. -/
def c4B : Student :=
  { id := "IN-PN-100-JDOE", enrollmentDate := daysFromCivil 2024 2 1 * dayMs }

/-- First merged record: expired, no package marker. -/
def c5A : Student :=
  { id := "IN-KB-100-JDOE", enrollmentDate := daysFromCivil 2024 1 1 * dayMs,
    endDate := some exE }

/-- Later merged record of the same person carrying the LTV marker. -/
def c5B : Student :=
  { id := "IN-PN-100-JDOE", enrollmentDate := daysFromCivil 2024 1 2 * dayMs,
    endDate := some exE, package := some "LTV" }

/-- A renewal record carrying the LTV marker, for the amended C5 witness. -/
def c5Renewal : RenewalRecord :=
  { id := "B-5", package := some "12M LTV",
    renewalDate := some (daysFromCivil 2024 2 1 * dayMs), source := "Renewal" }

/-- Student whose only renewal is dated before the end date. -/
def c6Student : Student :=
  { id := "A", enrollmentDate := 0, endDate := some exE,
    renewalDates := [exE - dayMs] }

/-- An instant seven days into the grace window of exE. -/
def c6Now : Nat := exE + 7 * dayMs

/-- Student with no renewal at all, inside the grace window at c6Now. -/
def c6Clean : Student := { id := "A", enrollmentDate := 0, endDate := some exE }

/-- A renewal with no matching enrollment record, with positive fees. -/
def c7Renewal : RenewalRecord :=
  { id := "Z-77", name := "Zed",
    renewalDate := some (daysFromCivil 2024 5 1 * dayMs),
    endDate := some (daysFromCivil 2030 1 1 * dayMs), fees := 100,
    source := "Renewal" }

/-- Range containing the renewal date of c7Renewal. -/
def c7Range : DateRange :=
  { startDate := daysFromCivil 2024 4 1 * dayMs,
    endDate := daysFromCivil 2024 6 1 * dayMs }

/-- Student with no endDate and no package. -/
def c8Student : Student :=
  { id := "A", name := "NoEnd", enrollmentDate := daysFromCivil 2024 1 1 * dayMs }

/-- A range starting and ending mid-month (2024-01-15 to 2024-01-20). -/
def c9Range : DateRange :=
  { startDate := daysFromCivil 2024 1 15 * dayMs,
    endDate := daysFromCivil 2024 1 20 * dayMs }

/-- Student enrolled 2024-01-05: inside the first calendar month of c9Range
but before its start date. -/
def c9Student : Student :=
  { id := "A", enrollmentDate := daysFromCivil 2024 1 5 * dayMs,
    source := some "FormResponses1" }

end ConcreteInputs

/-- Well-formedness of the heap-and-map pair of buildStudentMap: every map
entry points inside the heap, at a student whose id is the entry key. -/
def InvHM (heap : List Student) (m : List (String × Nat)) : Prop :=
  ∀ p ∈ m, p.2 < heap.length ∧ (heap.getD p.2 dummyStudent).id = p.1

open UnifiedDataProcessor

section HelperLemmas

theorem foldl_max_cases (x : Nat) (xs : List Nat) :
    xs.foldl Nat.max x = x ∨ xs.foldl Nat.max x ∈ xs := by
  induction xs generalizing x with
  | nil => exact Or.inl rfl
  | cons y ys ih =>
    simp only [List.foldl_cons]
    rcases ih (Nat.max x y) with h | h
    · rcases Nat.le_total x y with hxy | hyx
      · right
        have hm : Nat.max x y = y := Nat.max_eq_right hxy
        rw [h, hm]
        exact List.mem_cons_self _ _
      · left
        have hm : Nat.max x y = x := Nat.max_eq_left hyx
        rw [h, hm]
    · right
      exact List.mem_cons_of_mem _ h

theorem le_foldl_max (x : Nat) (xs : List Nat) :
    x ≤ xs.foldl Nat.max x ∧ ∀ r ∈ xs, r ≤ xs.foldl Nat.max x := by
  induction xs generalizing x with
  | nil => exact ⟨Nat.le_refl x, by simp⟩
  | cons y ys ih =>
    obtain ⟨h1, h2⟩ := ih (Nat.max x y)
    refine ⟨Nat.le_trans (Nat.le_max_left x y) h1, ?_⟩
    intro r hr
    rcases List.mem_cons.mp hr with rfl | hr
    · exact Nat.le_trans (Nat.le_max_right x r) h1
    · exact h2 r hr

theorem latestRenewal_mem {l : List Nat} {L : Nat} (h : latestRenewal l = some L) :
    L ∈ l := by
  cases l with
  | nil => simp [latestRenewal] at h
  | cons x xs =>
    simp only [latestRenewal, Option.some.injEq] at h
    subst h
    rcases foldl_max_cases x xs with h | h
    · rw [h]; exact List.mem_cons_self _ _
    · exact List.mem_cons_of_mem _ h

theorem le_latestRenewal {l : List Nat} {L : Nat} (h : latestRenewal l = some L) :
    ∀ r ∈ l, r ≤ L := by
  cases l with
  | nil => simp [latestRenewal] at h
  | cons x xs =>
    simp only [latestRenewal, Option.some.injEq] at h
    subst h
    intro r hr
    rcases List.mem_cons.mp hr with rfl | hr
    · exact (le_foldl_max r xs).1
    · exact (le_foldl_max x xs).2 r hr

theorem latestRenewal_none {l : List Nat} (h : latestRenewal l = none) : l = [] := by
  cases l with
  | nil => rfl
  | cons x xs => simp [latestRenewal] at h

/-- The churn filter is false exactly when some renewal is strictly later than
the end date, or one of the window conditions fails. -/
theorem churnedFilter_eq_true_iff (sd ed now : Nat) (s : Student) (E : Nat)
    (hE : s.endDate = some E) :
    UnifiedDataProcessor.churnedFilter sd ed now s = true ↔
      (E + 45 * dayMs < now ∧ (∀ r ∈ s.renewalDates, r ≤ E) ∧ sd ≤ E ∧ E ≤ ed) := by
  unfold UnifiedDataProcessor.churnedFilter
  rw [hE]
  simp only [Bool.and_eq_true, Bool.not_eq_true', decide_eq_true_eq]
  constructor
  · rintro ⟨⟨⟨h1, h2⟩, h3⟩, h4⟩
    refine ⟨h1, ?_, h3, h4⟩
    intro r hr
    match hL : latestRenewal s.renewalDates with
    | none => exact absurd hr (by simp [latestRenewal_none hL])
    | some L =>
      rw [hL] at h2
      have := le_latestRenewal hL r hr
      have hLE : L ≤ E := by
        by_contra hc
        simp [Nat.lt_of_not_le hc] at h2
      omega
  · rintro ⟨h1, h2, h3, h4⟩
    refine ⟨⟨⟨h1, ?_⟩, h3⟩, h4⟩
    match hL : latestRenewal s.renewalDates with
    | none => rfl
    | some L =>
      have := h2 L (latestRenewal_mem hL)
      simp [decide_eq_false_iff_not]
      omega

end HelperLemmas


section ProjectionLemmas

open UnifiedDataProcessor

theorem calcMetrics_renewalPercentage (students : List Student)
    (renewals : List RenewalRecord) (dr : DateRange) (now : Nat) :
    (calculateUnifiedMetrics students renewals dr now).1.renewalPercentage =
      roundTo1 (if 0 < eligibleCount students renewals (normalizeStart dr.startDate) (normalizeEnd dr.endDate)
        then (((renewals.filter (renewalInRange (normalizeStart dr.startDate) (normalizeEnd dr.endDate))).length : ℚ) /
          ((eligibleCount students renewals (normalizeStart dr.startDate) (normalizeEnd dr.endDate) : ℚ))) * 100
        else 0) := rfl

theorem calcMetrics_churnPercentage (students : List Student)
    (renewals : List RenewalRecord) (dr : DateRange) (now : Nat) :
    (calculateUnifiedMetrics students renewals dr now).1.churnPercentage =
      roundTo1 (if 0 < (getActiveStudentsAtDate students renewals (normalizeStart dr.startDate)).1.length
        then (((students.filter (churnedFilter (normalizeStart dr.startDate) (normalizeEnd dr.endDate) now)).length : ℚ) /
          (((getActiveStudentsAtDate students renewals (normalizeStart dr.startDate)).1.length : ℚ))) * 100
        else 0) := rfl

theorem calcMetrics_retentionPercentage (students : List Student)
    (renewals : List RenewalRecord) (dr : DateRange) (now : Nat) :
    (calculateUnifiedMetrics students renewals dr now).1.retentionPercentage =
      roundTo1 (100 -
        (if 0 < (getActiveStudentsAtDate students renewals (normalizeStart dr.startDate)).1.length
        then (((students.filter (churnedFilter (normalizeStart dr.startDate) (normalizeEnd dr.endDate) now)).length : ℚ) /
          (((getActiveStudentsAtDate students renewals (normalizeStart dr.startDate)).1.length : ℚ))) * 100
        else 0)) := rfl

theorem calcMetrics_netGrowthPercentage (students : List Student)
    (renewals : List RenewalRecord) (dr : DateRange) (now : Nat) :
    (calculateUnifiedMetrics students renewals dr now).1.netGrowthPercentage =
      roundTo1 (if 0 < (getActiveStudentsAtDate students renewals (normalizeStart dr.startDate)).1.length
        then (((((getActiveStudentsAtDate students renewals (normalizeStart dr.startDate)).1.length : ℚ) +
            ((students.filter (enrollmentInRange (normalizeStart dr.startDate) (normalizeEnd dr.endDate))).length : ℚ) -
            ((students.filter (churnedFilter (normalizeStart dr.startDate) (normalizeEnd dr.endDate) now)).length : ℚ)) -
            ((getActiveStudentsAtDate students renewals (normalizeStart dr.startDate)).1.length : ℚ)) /
          (((getActiveStudentsAtDate students renewals (normalizeStart dr.startDate)).1.length : ℚ))) * 100
        else 0) := rfl

theorem calcMetrics_churnedStudents (students : List Student)
    (renewals : List RenewalRecord) (dr : DateRange) (now : Nat) :
    (calculateUnifiedMetrics students renewals dr now).1.churnedStudents =
      (students.filter (churnedFilter (normalizeStart dr.startDate) (normalizeEnd dr.endDate) now)).length := rfl

theorem calcMetrics_lifetimeValue (students : List Student)
    (renewals : List RenewalRecord) (dr : DateRange) (now : Nat) :
    (calculateUnifiedMetrics students renewals dr now).1.lifetimeValue =
      (((getActiveStudentsAtDate students renewals (normalizeStart dr.startDate)).2.filter fun s =>
          decide (normalizeStart dr.startDate ≤ s.enrollmentDate) &&
            decide (s.enrollmentDate ≤ normalizeEnd dr.endDate)).foldl
        (fun acc s => acc + s.fees.getD 0) 0) := rfl

theorem calcMetrics_renewedStudents (students : List Student)
    (renewals : List RenewalRecord) (dr : DateRange) (now : Nat) :
    (calculateUnifiedMetrics students renewals dr now).1.renewedStudents =
      (renewals.filter (renewalInRange (normalizeStart dr.startDate) (normalizeEnd dr.endDate))).length := rfl

theorem calcMetrics_snd (students : List Student)
    (renewals : List RenewalRecord) (dr : DateRange) (now : Nat) :
    (calculateUnifiedMetrics students renewals dr now).2 =
      (getActiveStudentsAtDate students renewals (normalizeStart dr.startDate)).2 := rfl

theorem roundTo1_zero : roundTo1 0 = 0 := by
  norm_num [roundTo1, jsRound]

theorem roundTo1_hundred : roundTo1 100 = 100 := by
  norm_num [roundTo1, jsRound]

end ProjectionLemmas

/-- Claim C3 counterexample: on empty input arrays the aggregator returns
retentionPercentage = 100, not 0 as the claim requires of every percentage
field. -/
theorem c3_counterexample :
    (UnifiedDataProcessor.calculateUnifiedMetrics [] [] exRange exNow).1.retentionPercentage = 100 ∧
      (UnifiedDataProcessor.calculateUnifiedMetrics [] [] exRange exNow).1.retentionPercentage ≠ 0 := by
  have hzero : (UnifiedDataProcessor.getActiveStudentsAtDate [] []
      (normalizeStart exRange.startDate)).1.length = 0 := by decide
  have h := calcMetrics_retentionPercentage [] [] exRange exNow
  rw [hzero] at h
  norm_num [roundTo1_hundred] at h
  exact ⟨h, by rw [h]; norm_num⟩

/-- Claim C3 amended: whenever a percentage denominator is zero the aggregator
still returns: renewalPercentage, churnPercentage and netGrowthPercentage are
0, while retentionPercentage is 100 (not 0); no field is undefined. -/
theorem c3_amended (students : List Student) (renewals : List RenewalRecord)
    (dr : DateRange) (now : Nat) :
    (UnifiedDataProcessor.eligibleCount students renewals
        (normalizeStart dr.startDate) (normalizeEnd dr.endDate) = 0 →
      (UnifiedDataProcessor.calculateUnifiedMetrics students renewals dr now).1.renewalPercentage = 0) ∧
    ((UnifiedDataProcessor.getActiveStudentsAtDate students renewals
        (normalizeStart dr.startDate)).1.length = 0 →
      (UnifiedDataProcessor.calculateUnifiedMetrics students renewals dr now).1.churnPercentage = 0 ∧
      (UnifiedDataProcessor.calculateUnifiedMetrics students renewals dr now).1.retentionPercentage = 100 ∧
      (UnifiedDataProcessor.calculateUnifiedMetrics students renewals dr now).1.netGrowthPercentage = 0) := by
  refine ⟨fun h => ?_, fun h => ⟨?_, ?_, ?_⟩⟩
  · rw [calcMetrics_renewalPercentage, h]
    norm_num [roundTo1_zero]
  · rw [calcMetrics_churnPercentage, h]
    norm_num [roundTo1_zero]
  · rw [calcMetrics_retentionPercentage, h]
    norm_num [roundTo1_hundred]
  · rw [calcMetrics_netGrowthPercentage, h]
    norm_num [roundTo1_zero]

/-- Claim C3 witness: empty inputs realize both zero denominators. -/
theorem c3_witness :
    (UnifiedDataProcessor.calculateUnifiedMetrics [] [] exRange exNow).1.renewalPercentage = 0 ∧
      (UnifiedDataProcessor.calculateUnifiedMetrics [] [] exRange exNow).1.netGrowthPercentage = 0 :=
  ⟨(c3_amended [] [] exRange exNow).1 (by decide),
   ((c3_amended [] [] exRange exNow).2 (by decide)).2.2⟩

theorem mergeInto_enrollmentDate (e i : Student) :
    (UnifiedDataProcessor.mergeInto e i).enrollmentDate =
      Nat.max e.enrollmentDate i.enrollmentDate := by
  show (if e.enrollmentDate < i.enrollmentDate then i.enrollmentDate
    else e.enrollmentDate) = _
  split
  · exact (Nat.max_eq_right (Nat.le_of_lt (by assumption))).symm
  · exact (Nat.max_eq_left (Nat.le_of_not_lt (by assumption))).symm

theorem foldl_mergeStep_single (b : String) (acc : Student) (rest : List Student)
    (h : ∀ t ∈ rest, UnifiedDataProcessor.getBaseId t.id = b) :
    rest.foldl (fun m s => UnifiedDataProcessor.mergeStep m (UnifiedDataProcessor.getBaseId s.id) s)
        [(b, acc)] =
      [(b, rest.foldl UnifiedDataProcessor.mergeInto acc)] := by
  induction rest generalizing acc with
  | nil => rfl
  | cons t ts ih =>
    have ht := h t (List.mem_cons_self t ts)
    simp only [List.foldl_cons, ht, UnifiedDataProcessor.mergeStep, if_pos rfl]
    exact ih (UnifiedDataProcessor.mergeInto acc t)
      (fun u hu => h u (List.mem_cons_of_mem t hu))

theorem foldl_mergeInto_enrollmentDate (acc : Student) (rest : List Student) :
    (rest.foldl UnifiedDataProcessor.mergeInto acc).enrollmentDate =
      (rest.map Student.enrollmentDate).foldl Nat.max acc.enrollmentDate := by
  induction rest generalizing acc with
  | nil => rfl
  | cons t ts ih =>
    simp only [List.foldl_cons, List.map_cons]
    rw [ih, mergeInto_enrollmentDate]

/-- Claim C4 counterexample: merging two records of the same person keeps the
latest enrollment date (2024-02-01), not the earliest (2024-01-01). -/
theorem c4_counterexample :
    (UnifiedDataProcessor.mergeStudentRecords [c4A, c4B]).map Student.enrollmentDate =
        [c4B.enrollmentDate] ∧
      c4A.enrollmentDate < c4B.enrollmentDate := by
  constructor
  · rfl
  · decide

/-- Claim C4 amended: the merged enrollmentDate is the latest (maximum)
enrollment date across the merged records, independent of input order. -/
theorem c4_amended (s0 : Student) (rest : List Student)
    (h : ∀ t ∈ rest, UnifiedDataProcessor.getBaseId t.id =
      UnifiedDataProcessor.getBaseId s0.id) :
    (UnifiedDataProcessor.mergeStudentRecords (s0 :: rest)).map Student.enrollmentDate =
      [(rest.map Student.enrollmentDate).foldl Nat.max s0.enrollmentDate] := by
  unfold UnifiedDataProcessor.mergeStudentRecords
  simp only [List.foldl_cons]
  have h0 : UnifiedDataProcessor.mergeStep [] (UnifiedDataProcessor.getBaseId s0.id) s0 =
      [(UnifiedDataProcessor.getBaseId s0.id, s0)] := rfl
  rw [h0, foldl_mergeStep_single _ s0 rest h]
  simp [foldl_mergeInto_enrollmentDate]

/-- Claim C4 witness: the amended statement at the two concrete records. -/
theorem c4_witness :
    (UnifiedDataProcessor.mergeStudentRecords [c4A, c4B]).map Student.enrollmentDate =
      [([c4B].map Student.enrollmentDate).foldl Nat.max c4A.enrollmentDate] :=
  c4_amended c4A [c4B] (by decide)

/-- Claim C8 counterexample: a student with no endDate (and no package) is NOT
considered active by the active-students computation at exNow. -/
theorem c8_counterexample :
    c8Student.endDate = none ∧
      (UnifiedDataProcessor.getActiveStudentsAtDate [c8Student] [] exNow).1 = [] := by
  constructor
  · rfl
  · decide

/-- Claim C8 amended: a student with no endDate is never counted churned, but
the active-students computation counts them active only when the package
carries the LTV marker; otherwise they are excluded at every date. -/
theorem c8_amended (s : Student) (h : s.endDate = none) :
    (∀ d, UnifiedDataProcessor.activeFilter d s = hasLTVPackage s.package) ∧
    (∀ sd ed now, UnifiedDataProcessor.churnedFilter sd ed now s = false) ∧
    (∀ d, (UnifiedDataProcessor.getActiveStudentsAtDate [s] [] d).1.length =
      if hasLTVPackage s.package then 1 else 0) := by
  have hact : ∀ d, UnifiedDataProcessor.activeFilter d s = hasLTVPackage s.package := by
    intro d
    unfold UnifiedDataProcessor.activeFilter
    rw [h]
  refine ⟨hact, ?_, ?_⟩
  · intro sd ed now
    unfold UnifiedDataProcessor.churnedFilter
    rw [h]
  · intro d
    have hred : (UnifiedDataProcessor.getActiveStudentsAtDate [s] [] d).1 =
        UnifiedDataProcessor.getStudentsWithLTV
          (List.filter (UnifiedDataProcessor.activeFilter d) [s]) := rfl
    rw [hred]
    cases hp : hasLTVPackage s.package with
    | true =>
      simp [List.filter, hact d, hp, UnifiedDataProcessor.getStudentsWithLTV]
    | false =>
      simp [List.filter, hact d, hp, UnifiedDataProcessor.getStudentsWithLTV]

/-- Claim C8 witness: the amended statement at the concrete student. -/
theorem c8_witness :
    (UnifiedDataProcessor.getActiveStudentsAtDate [c8Student] [] exNow).1.length =
      if hasLTVPackage c8Student.package then 1 else 0 :=
  (c8_amended c8Student rfl).2.2 exNow

/-- Claim C1 counterexample: a student whose only renewal is dated exactly
endDate + 46 days (past the grace end), evaluated after the grace end, is NOT
counted churned by the churn computation, contrary to the claim. -/
theorem c1_counterexample :
    c1Student.endDate = some exE ∧
      c1Student.renewalDates = [exE + 46 * dayMs] ∧
      exE + 45 * dayMs < exNow ∧
      UnifiedDataProcessor.getChurnedStudents [c1Student] exRange exNow = [] := by
  refine ⟨rfl, rfl, by decide, ?_⟩
  decide

/-- Claim C1 amended: a renewal dated strictly after endDate — whether at
endDate + 45 days or endDate + 46 days — always prevents the churn
classification; a student is counted churned exactly when the grace end has
passed, no renewal is dated after endDate, and endDate lies in the range. -/
theorem c1_amended (dr : DateRange) (now : Nat) (s : Student) (E : Nat)
    (hE : s.endDate = some E) :
    ((∃ r ∈ s.renewalDates, E < r) →
      UnifiedDataProcessor.getChurnedStudents [s] dr now = []) ∧
    ((∀ r ∈ s.renewalDates, r ≤ E) → E + 45 * dayMs < now →
      normalizeStart dr.startDate ≤ E → E ≤ normalizeEnd dr.endDate →
      UnifiedDataProcessor.getChurnedStudents [s] dr now ≠ []) := by
  constructor
  · rintro ⟨r, hr, hEr⟩
    have hfilter : UnifiedDataProcessor.churnedFilter (normalizeStart dr.startDate)
        (normalizeEnd dr.endDate) now s = false := by
      rcases hf : UnifiedDataProcessor.churnedFilter (normalizeStart dr.startDate)
          (normalizeEnd dr.endDate) now s with _ | _
      · rfl
      · exfalso
        have := ((churnedFilter_eq_true_iff _ _ now s E hE).mp hf).2.1 r hr
        omega
    show (UnifiedDataProcessor.getStudentsWithLTV
      (List.filter _ [s])).map _ = []
    simp [List.filter, hfilter, UnifiedDataProcessor.getStudentsWithLTV]
  · intro h1 h2 h3 h4
    have hfilter : UnifiedDataProcessor.churnedFilter (normalizeStart dr.startDate)
        (normalizeEnd dr.endDate) now s = true :=
      (churnedFilter_eq_true_iff _ _ now s E hE).mpr ⟨h2, h1, h3, h4⟩
    show (UnifiedDataProcessor.getStudentsWithLTV
      (List.filter _ [s])).map _ ≠ []
    simp [List.filter, hfilter, UnifiedDataProcessor.getStudentsWithLTV]

/-- Claim C1 witness: the renewal dated exactly endDate + 45 days prevents the
churn classification. -/
theorem c1_witness :
    UnifiedDataProcessor.getChurnedStudents [c1aStudent] exRange exNow = [] :=
  (c1_amended exRange exNow c1aStudent exE rfl).1
    ⟨exE + 45 * dayMs, by simp [c1aStudent], by simp [dayMs, exE]⟩

theorem inGraceFilter_eq_true_iff (sd ed now : Nat) (s : Student) (E : Nat)
    (hE : s.endDate = some E) :
    UnifiedDataProcessor.inGraceFilter sd ed now s = true ↔
      (E < now ∧ now < E + 45 * dayMs ∧
        (∀ r ∈ s.renewalDates, E + 45 * dayMs < r) ∧ sd ≤ E ∧ E ≤ ed) := by
  unfold UnifiedDataProcessor.inGraceFilter
  rw [hE]
  simp only [Bool.and_eq_true, Bool.not_eq_true', decide_eq_true_eq,
    Bool.and_eq_false_iff, Bool.not_eq_false', List.isEmpty_iff,
    List.any_eq_false, Bool.or_eq_false_iff, decide_eq_false_iff_not]
  constructor
  · rintro ⟨⟨⟨⟨h1, h2⟩, h3⟩, h4⟩, h5⟩
    refine ⟨h1, h2, ?_, h4, h5⟩
    intro r hr
    rcases h3 with h3 | h3
    · rw [h3] at hr
      simp at hr
    · have hx := h3 r hr
      simp only [Bool.or_eq_true, decide_eq_true_eq, not_or] at hx
      omega
  · rintro ⟨h1, h2, h3, h4, h5⟩
    refine ⟨⟨⟨⟨h1, h2⟩, ?_⟩, h4⟩, h5⟩
    right
    intro r hr
    have hx := h3 r hr
    simp only [Bool.or_eq_true, decide_eq_true_eq, not_or]
    omega

/-- Claim C6 counterexample: a student whose only renewal predates endDate (so
no valid renewal exists), evaluated inside the grace window with endDate in
range, is NOT classified in-grace — the pre-expiration renewal blocks the
classification, contrary to the claim. -/
theorem c6_counterexample :
    c6Student.endDate = some exE ∧
      (∀ r ∈ c6Student.renewalDates, ¬ exE < r) ∧
      exE ≤ c6Now ∧ c6Now < exE + 45 * dayMs ∧
      normalizeStart exRange.startDate ≤ exE ∧ exE ≤ normalizeEnd exRange.endDate ∧
      UnifiedDataProcessor.getInGraceStudents [c6Student] exRange c6Now = [] := by
  refine ⟨rfl, by decide, by decide, by decide, by decide, by decide, ?_⟩
  decide

/-- Claim C6 amended: for endDate < D < grace end, the student is classified
in-grace exactly when NO renewal dated on or before the grace end exists: a
renewal dated before endDate also prevents the classification, and the window
is strict at endDate. -/
theorem c6_amended (dr : DateRange) (now : Nat) (s : Student) (E : Nat)
    (hE : s.endDate = some E) :
    (UnifiedDataProcessor.inGraceFilter (normalizeStart dr.startDate)
        (normalizeEnd dr.endDate) now s = true ↔
      (E < now ∧ now < E + 45 * dayMs ∧
        (∀ r ∈ s.renewalDates, E + 45 * dayMs < r) ∧
        normalizeStart dr.startDate ≤ E ∧ E ≤ normalizeEnd dr.endDate)) ∧
    (UnifiedDataProcessor.getInGraceStudents [s] dr now = [] ↔
      UnifiedDataProcessor.inGraceFilter (normalizeStart dr.startDate)
        (normalizeEnd dr.endDate) now s = false) := by
  refine ⟨inGraceFilter_eq_true_iff _ _ now s E hE, ?_⟩
  rcases hf : UnifiedDataProcessor.inGraceFilter (normalizeStart dr.startDate)
      (normalizeEnd dr.endDate) now s with _ | _
  · constructor
    · intro _
      rfl
    · intro _
      show UnifiedDataProcessor.getStudentsWithLTV (List.filter _ [s]) = []
      simp [List.filter, hf, UnifiedDataProcessor.getStudentsWithLTV]
  · constructor
    · intro hempty
      exfalso
      have : UnifiedDataProcessor.getInGraceStudents [s] dr now ≠ [] := by
        show UnifiedDataProcessor.getStudentsWithLTV (List.filter _ [s]) ≠ []
        simp [List.filter, hf, UnifiedDataProcessor.getStudentsWithLTV]
      exact this hempty
    · intro h
      simp at h

/-- Claim C6 witness: a renewal-free student seven days into the grace window
is classified in-grace. -/
theorem c6_witness :
    UnifiedDataProcessor.inGraceFilter (normalizeStart exRange.startDate)
      (normalizeEnd exRange.endDate) c6Now c6Clean = true :=
  ((c6_amended exRange c6Now c6Clean exE rfl).1).mpr
    ⟨by decide, by decide, by decide, by decide, by decide⟩

theorem headOfMapRange {α : Type} (f : Nat → α) (n : Nat) (h : 0 < n) :
    ((List.range n).map f).head? = some (f 0) := by
  cases n with
  | zero => exact absurd h (by omega)
  | succ m =>
    rw [List.range_succ_eq_map, List.map_cons]
    rfl

theorem monthlyBucket_newEnrollments (students : List Student)
    (renewals : List RenewalRecord) (rs now : Nat) (i : Nat) :
    (UnifiedDataProcessor.monthlyBucket students renewals rs now i).newEnrollments =
      (students.filter fun s =>
        decide (addMonthsMs rs (i : Int) ≤ s.enrollmentDate) &&
          decide (s.enrollmentDate ≤ endOfMonthMs (addMonthsMs rs (i : Int)))).length := rfl

/-- Claim C9 counterexample: with range 2024-01-15 to 2024-01-20, an
enrollment dated 2024-01-05 — inside the first calendar month but before the
range start — is still counted in the first monthly bucket. -/
theorem c9_counterexample :
    c9Student.enrollmentDate < c9Range.startDate ∧
      (UnifiedDataProcessor.calculateMonthlyTrends [c9Student] [] c9Range exNow).map
        MonthlyMetrics.newEnrollments = [1] := by
  exact ⟨by decide, by decide⟩

/-- Claim C9 amended: the monthly series does NOT clip buckets to the range
boundaries: every bucket spans its whole calendar month, so any enrollment
dated anywhere inside the first calendar month — even before the requested
start date — is counted in the first bucket. -/
theorem c9_amended (students : List Student) (renewals : List RenewalRecord)
    (dr : DateRange) (now : Nat) (s : Student)
    (hmem : s ∈ students)
    (h1 : addMonthsMs (startOfMonthMs dr.startDate) 0 ≤ s.enrollmentDate)
    (h2 : s.enrollmentDate ≤ endOfMonthMs (addMonthsMs (startOfMonthMs dr.startDate) 0))
    (hcount : 0 < (diffCalendarMonths (endOfMonthMs dr.endDate)
      (startOfMonthMs dr.startDate) + 1).toNat) :
    ∃ b, (UnifiedDataProcessor.calculateMonthlyTrends students renewals dr now).head? = some b ∧
      0 < b.newEnrollments := by
  refine ⟨UnifiedDataProcessor.monthlyBucket students renewals
    (startOfMonthMs dr.startDate) now 0, ?_, ?_⟩
  · exact headOfMapRange _ _ hcount
  · rw [monthlyBucket_newEnrollments]
    have hs : s ∈ students.filter fun x =>
        decide (addMonthsMs (startOfMonthMs dr.startDate) ((0 : Nat) : Int) ≤ x.enrollmentDate) &&
          decide (x.enrollmentDate ≤ endOfMonthMs (addMonthsMs (startOfMonthMs dr.startDate) ((0 : Nat) : Int))) := by
      refine List.mem_filter.mpr ⟨hmem, ?_⟩
      simp only [Bool.and_eq_true, decide_eq_true_eq]
      exact ⟨h1, h2⟩
    exact List.length_pos.mpr (List.ne_nil_of_mem hs)

/-- Claim C9 witness: the amended statement at the concrete mid-month range,
with the enrollment dated before the range start. -/
theorem c9_witness :
    ∃ b, (UnifiedDataProcessor.calculateMonthlyTrends [c9Student] [] c9Range exNow).head? = some b ∧
      0 < b.newEnrollments :=
  c9_amended [c9Student] [] c9Range exNow c9Student (by decide) (by decide)
    (by decide) (by decide)


theorem roundTo1_tenth (x : ℚ) : ∃ k : ℤ, roundTo1 x = (k : ℚ) / 10 :=
  ⟨jsRound (x * 10), rfl⟩

theorem trends_getElem_eq (students : List Student) (renewals : List RenewalRecord)
    (dr : DateRange) (now : Nat) (i : Nat) (b : MonthlyMetrics)
    (h : (calculateMonthlyTrends students renewals dr now)[i]? = some b) :
    b = monthlyBucket students renewals (startOfMonthMs dr.startDate) now i := by
  unfold calculateMonthlyTrends at h
  rw [List.getElem?_map] at h
  cases hr : (List.range ((diffCalendarMonths (endOfMonthMs dr.endDate)
      (startOfMonthMs dr.startDate) + 1).toNat))[i]? with
  | none =>
    rw [hr] at h
    exact Option.noConfusion h
  | some j =>
    rw [hr] at h
    have hj : j = i := by
      obtain ⟨hlt, hget⟩ := List.getElem?_eq_some.mp hr
      rw [← hget]
      apply List.getElem_range
    subst hj
    injection h with h2
    exact h2.symm

/-- Claim C10: every percentage field of the snapshot aggregator and of every
monthly bucket equals Math.round(raw * 10) / 10 of its raw ratio, hence each
is an integer multiple of one tenth (exactly one decimal place). -/
theorem c10_rounding (students : List Student) (renewals : List RenewalRecord)
    (dr : DateRange) (now : Nat) :
    ((calculateUnifiedMetrics students renewals dr now).1.renewalPercentage =
        roundTo1 (if 0 < eligibleCount students renewals
            (normalizeStart dr.startDate) (normalizeEnd dr.endDate)
          then (((renewals.filter (renewalInRange
              (normalizeStart dr.startDate) (normalizeEnd dr.endDate))).length : ℚ) /
            ((eligibleCount students renewals
              (normalizeStart dr.startDate) (normalizeEnd dr.endDate) : ℚ))) * 100
          else 0) ∧
      (calculateUnifiedMetrics students renewals dr now).1.churnPercentage =
        roundTo1 (if 0 < (getActiveStudentsAtDate students renewals
            (normalizeStart dr.startDate)).1.length
          then (((students.filter (churnedFilter
              (normalizeStart dr.startDate) (normalizeEnd dr.endDate) now)).length : ℚ) /
            (((getActiveStudentsAtDate students renewals
              (normalizeStart dr.startDate)).1.length : ℚ))) * 100
          else 0)) ∧
    ((∃ k : ℤ, (calculateUnifiedMetrics students renewals dr now).1.renewalPercentage = (k : ℚ) / 10) ∧
      (∃ k : ℤ, (calculateUnifiedMetrics students renewals dr now).1.churnPercentage = (k : ℚ) / 10) ∧
      (∃ k : ℤ, (calculateUnifiedMetrics students renewals dr now).1.retentionPercentage = (k : ℚ) / 10) ∧
      (∃ k : ℤ, (calculateUnifiedMetrics students renewals dr now).1.netGrowthPercentage = (k : ℚ) / 10)) ∧
    (∀ (i : Nat) (b : MonthlyMetrics),
      (calculateMonthlyTrends students renewals dr now)[i]? = some b →
      (b.renewalRate = roundTo1 (if 0 < eligibleCount students renewals
            (addMonthsMs (startOfMonthMs dr.startDate) (i : Int))
            (endOfMonthMs (addMonthsMs (startOfMonthMs dr.startDate) (i : Int)))
          then (((renewals.filter (renewalInRange
              (addMonthsMs (startOfMonthMs dr.startDate) (i : Int))
              (endOfMonthMs (addMonthsMs (startOfMonthMs dr.startDate) (i : Int))))).length : ℚ) /
            ((eligibleCount students renewals
              (addMonthsMs (startOfMonthMs dr.startDate) (i : Int))
              (endOfMonthMs (addMonthsMs (startOfMonthMs dr.startDate) (i : Int))) : ℚ))) * 100
          else 0)) ∧
      (∃ k : ℤ, b.churnRate = (k : ℚ) / 10) ∧
      (∃ k : ℤ, b.retentionRate = (k : ℚ) / 10) ∧
      (∃ k : ℤ, b.netGrowthRate = (k : ℚ) / 10) ∧
      (∃ k : ℤ, b.renewalRate = (k : ℚ) / 10)) := by
  refine ⟨⟨calcMetrics_renewalPercentage students renewals dr now,
    calcMetrics_churnPercentage students renewals dr now⟩, ⟨?_, ?_, ?_, ?_⟩, ?_⟩
  · rw [calcMetrics_renewalPercentage]
    exact roundTo1_tenth _
  · rw [calcMetrics_churnPercentage]
    exact roundTo1_tenth _
  · rw [calcMetrics_retentionPercentage]
    exact roundTo1_tenth _
  · rw [calcMetrics_netGrowthPercentage]
    exact roundTo1_tenth _
  · intro i b hb
    have hbeq := trends_getElem_eq students renewals dr now i b hb
    subst hbeq
    exact ⟨rfl, roundTo1_tenth _, roundTo1_tenth _, roundTo1_tenth _, roundTo1_tenth _⟩

/-- Claim C10 witness: the rounding property at concrete inputs, including the
first monthly bucket. -/
theorem c10_witness :
    (∃ k : ℤ, (calculateUnifiedMetrics [c9Student] [] c9Range exNow).1.renewalPercentage = (k : ℚ) / 10) ∧
      (∃ k : ℤ, (monthlyBucket [c9Student] []
        (startOfMonthMs c9Range.startDate) exNow 0).churnRate = (k : ℚ) / 10) := by
  refine ⟨(c10_rounding [c9Student] [] c9Range exNow).2.1.1, ?_⟩
  have h := (c10_rounding [c9Student] [] c9Range exNow).2.2 0
    (monthlyBucket [c9Student] [] (startOfMonthMs c9Range.startDate) exNow 0)
    rfl
  exact h.2.1

section HeapLemmas

theorem listGetD_set_eq {α : Type} (l : List α) (j : Nat) (a d : α)
    (h : j < l.length) : (l.set j a).getD j d = a := by
  induction l generalizing j with
  | nil => simp at h
  | cons x xs ih =>
    cases j with
    | zero => rfl
    | succ n => simpa using ih n (by simpa using h)

theorem listGetD_set_ne {α : Type} (l : List α) (i j : Nat) (a d : α)
    (h : i ≠ j) : (l.set i a).getD j d = l.getD j d := by
  induction l generalizing i j with
  | nil => rfl
  | cons x xs ih =>
    cases i with
    | zero =>
      cases j with
      | zero => exact absurd rfl h
      | succ m => rfl
    | succ n =>
      cases j with
      | zero => rfl
      | succ m => simpa using ih n m (by omega)

theorem listGetD_append_left {α : Type} (l t : List α) (j : Nat) (d : α)
    (h : j < l.length) : (l ++ t).getD j d = l.getD j d := by
  induction l generalizing j with
  | nil => simp at h
  | cons x xs ih =>
    cases j with
    | zero => rfl
    | succ n => simpa using ih n (by simpa using h)

theorem listGetD_append_len {α : Type} (l : List α) (x d : α) :
    (l ++ [x]).getD l.length d = x := by
  induction l with
  | nil => rfl
  | cons y ys ih => exact ih

theorem listTake_set_ge {α : Type} (l : List α) (j n : Nat) (a : α)
    (h : n ≤ j) : (l.set j a).take n = l.take n := by
  induction l generalizing j n with
  | nil => rfl
  | cons x xs ih =>
    cases n with
    | zero => rfl
    | succ m =>
      cases j with
      | zero => omega
      | succ k => simpa using ih k m (by omega)

theorem listTake_append_left {α : Type} (l t : List α) (n : Nat)
    (h : n ≤ l.length) : (l ++ t).take n = l.take n := by
  induction l generalizing n with
  | nil =>
    have : n = 0 := by simpa using h
    subst this
    rfl
  | cons x xs ih =>
    cases n with
    | zero => rfl
    | succ m => simpa using ih m (by simpa using h)

theorem lookupIdx_mem (m : List (String × Nat)) (k : String) (v : Nat)
    (h : lookupIdx m k = some v) : (k, v) ∈ m := by
  induction m with
  | nil => exact absurd h (by simp [lookupIdx])
  | cons p rest ih =>
    obtain ⟨k2, v2⟩ := p
    simp only [lookupIdx] at h
    split at h
    · rename_i hk
      injection h with hv
      subst hv
      subst hk
      exact List.mem_cons_self _ _
    · exact List.mem_cons_of_mem _ (ih h)

theorem lookupIdx_append_some (m m2 : List (String × Nat)) (k : String) (v : Nat)
    (h : lookupIdx m k = some v) : lookupIdx (m ++ m2) k = some v := by
  induction m with
  | nil => exact absurd h (by simp [lookupIdx])
  | cons p rest ih =>
    obtain ⟨k2, v2⟩ := p
    simp only [lookupIdx] at h
    simp only [List.cons_append, lookupIdx]
    split at h
    · rename_i hk
      rw [if_pos hk]
      exact h
    · rename_i hk
      rw [if_neg hk]
      exact ih h

theorem lookupIdx_append_none (m m2 : List (String × Nat)) (k : String)
    (h : lookupIdx m k = none) : lookupIdx (m ++ m2) k = lookupIdx m2 k := by
  induction m with
  | nil => rfl
  | cons p rest ih =>
    obtain ⟨k2, v2⟩ := p
    simp only [lookupIdx] at h
    simp only [List.cons_append, lookupIdx]
    split at h
    · exact Option.noConfusion h
    · rename_i hk
      rw [if_neg hk]
      exact ih h

theorem lookupIdx_alistReplace_ne (m : List (String × Nat)) (k k2 : String)
    (v : Nat) (h : k2 ≠ k) :
    lookupIdx (alistReplace m k2 v) k = lookupIdx m k := by
  induction m with
  | nil => rfl
  | cons p rest ih =>
    obtain ⟨k3, v3⟩ := p
    simp only [alistReplace]
    split
    · rename_i hk
      have hne : k3 ≠ k := by
        rw [hk]
        exact h
      simp only [lookupIdx]
      rw [if_neg hne, if_neg hne]
    · simp only [lookupIdx]
      by_cases hk2 : k3 = k
      · rw [if_pos hk2, if_pos hk2]
      · rw [if_neg hk2, if_neg hk2]
        exact ih

theorem alistReplace_mem (m : List (String × Nat)) (k : String) (v : Nat)
    (p : String × Nat) (h : p ∈ alistReplace m k v) :
    p ∈ m ∨ (p.1 = k ∧ p.2 = v) := by
  induction m with
  | nil => simp [alistReplace] at h
  | cons q rest ih =>
    obtain ⟨k2, v2⟩ := q
    by_cases hk : k2 = k
    · subst hk
      simp only [alistReplace, if_pos rfl] at h
      rcases List.mem_cons.mp h with rfl | h
      · exact Or.inr ⟨rfl, rfl⟩
      · exact Or.inl (List.mem_cons_of_mem _ h)
    · simp only [alistReplace, if_neg hk] at h
      rcases List.mem_cons.mp h with rfl | h
      · exact Or.inl (List.mem_cons_self _ _)
      · rcases ih h with h | h
        · exact Or.inl (List.mem_cons_of_mem _ h)
        · exact Or.inr h

end HeapLemmas

section LoopLemmas

theorem renewUpdate_id (s : Student) (r : RenewalRecord) :
    (renewUpdate s r).id = s.id := by
  unfold renewUpdate
  cases r.endDate <;> cases r.renewalDate <;> cases s.endDate <;>
    dsimp only <;> (repeat' split) <;> rfl

theorem renewUpdate_package (s : Student) (r : RenewalRecord) :
    (renewUpdate s r).package =
      if hasLTVPackage r.package then r.package else s.package := by
  unfold renewUpdate
  cases r.endDate <;> cases r.renewalDate <;> cases s.endDate <;>
    dsimp only <;> (repeat' split) <;> rfl

theorem renewalsLoop_cons (r : RenewalRecord) (rest : List RenewalRecord)
    (heap : List Student) (m : List (String × Nat)) :
    renewalsLoop (r :: rest) heap m =
      match lookupIdx m r.id with
      | some j => renewalsLoop rest
          (heap.set j (renewUpdate (heap.getD j dummyStudent) r)) m
      | none => renewalsLoop rest (heap ++ [synthStudent r])
          (m ++ [(r.id, heap.length)]) := rfl

theorem studentsLoop_cons (all : List Student) (s : Student) (rest : List Student)
    (idx : Nat) (m : List (String × Nat)) :
    studentsLoop all (s :: rest) idx m =
      studentsLoop all rest (idx + 1)
        (match lookupIdx m s.id with
         | some j =>
           if (all.getD j dummyStudent).enrollmentDate < s.enrollmentDate then
             alistReplace m s.id idx
           else m
         | none => m ++ [(s.id, idx)]) := rfl

theorem invHM_set (heap : List Student) (m : List (String × Nat)) (j : Nat)
    (x : Student) (hInv : InvHM heap m)
    (hx : x.id = (heap.getD j dummyStudent).id) : InvHM (heap.set j x) m := by
  intro p hp
  obtain ⟨h1, h2⟩ := hInv p hp
  refine ⟨by simpa using h1, ?_⟩
  by_cases hj : j = p.2
  · subst hj
    rw [listGetD_set_eq _ _ _ _ h1, hx]
    exact h2
  · rw [listGetD_set_ne _ _ _ _ _ hj]
    exact h2

theorem invHM_append_synth (heap : List Student) (m : List (String × Nat))
    (r : RenewalRecord) (hInv : InvHM heap m) :
    InvHM (heap ++ [synthStudent r]) (m ++ [(r.id, heap.length)]) := by
  intro p hp
  rcases List.mem_append.mp hp with hp | hp
  · obtain ⟨h1, h2⟩ := hInv p hp
    refine ⟨by simp; omega, ?_⟩
    rw [listGetD_append_left _ _ _ _ h1]
    exact h2
  · have hp2 : p = (r.id, heap.length) := by simpa using hp
    subst hp2
    refine ⟨by simp, ?_⟩
    rw [listGetD_append_len]
    rfl

theorem invHM_renewalsLoop (rest : List RenewalRecord) (heap : List Student)
    (m : List (String × Nat)) (hInv : InvHM heap m) :
    InvHM (renewalsLoop rest heap m).1 (renewalsLoop rest heap m).2 := by
  induction rest generalizing heap m with
  | nil => exact hInv
  | cons r rest ih =>
    rw [renewalsLoop_cons]
    cases hl : lookupIdx m r.id with
    | some j => exact ih _ _ (invHM_set _ _ _ _ hInv (renewUpdate_id _ _))
    | none => exact ih _ _ (invHM_append_synth _ _ _ hInv)

theorem drop_cons_getD {α : Type} (l : List α) (n : Nat) (a : α) (t : List α)
    (d : α) (h : l.drop n = a :: t) :
    l.getD n d = a ∧ n < l.length ∧ l.drop (n + 1) = t := by
  induction l generalizing n with
  | nil => simp at h
  | cons x xs ih =>
    cases n with
    | zero =>
      simp only [List.drop_zero] at h
      injection h with h1 h2
      subst h1
      subst h2
      exact ⟨rfl, by simp, by simp⟩
    | succ k =>
      simp only [List.drop_succ_cons] at h
      obtain ⟨h1, h2, h3⟩ := ih k h
      exact ⟨h1, by simp; omega, h3⟩

theorem invHM_studentsLoop (all : List Student) (l : List Student) :
    ∀ (idx : Nat) (m : List (String × Nat)), all.drop idx = l → InvHM all m →
      InvHM all (studentsLoop all l idx m) := by
  induction l with
  | nil => intro idx m _ hInv; exact hInv
  | cons s rest ih =>
    intro idx m hdrop hInv
    obtain ⟨hget, hlt, hdrop2⟩ := drop_cons_getD all idx s rest dummyStudent hdrop
    rw [studentsLoop_cons]
    apply ih (idx + 1) _ hdrop2
    split
    · split
      · intro p hp
        rcases alistReplace_mem _ _ _ _ hp with hp | ⟨hp1, hp2⟩
        · exact hInv p hp
        · obtain ⟨q1, q2⟩ := p
          simp only at hp1 hp2
          subst hp1
          subst hp2
          exact ⟨hlt, by rw [hget]⟩
      · exact hInv
    · intro p hp
      rcases List.mem_append.mp hp with hp | hp
      · exact hInv p hp
      · have hp2 : p = (s.id, idx) := by simpa using hp
        subst hp2
        exact ⟨hlt, by rw [hget]⟩

end LoopLemmas

theorem studentsLoop_keys (all : List Student) (keys : List String)
    (l : List Student) :
    ∀ (idx : Nat) (m : List (String × Nat)), (∀ p ∈ m, p.1 ∈ keys) →
      (∀ s2 ∈ l, s2.id ∈ keys) →
      ∀ p ∈ studentsLoop all l idx m, p.1 ∈ keys := by
  induction l with
  | nil => intro idx m hm _ p hp; exact hm p hp
  | cons s rest ih =>
    intro idx m hm hl p hp
    rw [studentsLoop_cons] at hp
    refine ih (idx + 1) _ ?_ (fun s2 hs2 => hl s2 (List.mem_cons_of_mem _ hs2)) p hp
    split
    · split
      · intro q hq
        rcases alistReplace_mem _ _ _ _ hq with hq | ⟨hq1, _⟩
        · exact hm q hq
        · rw [hq1]
          exact hl s (List.mem_cons_self _ _)
      · exact hm
    · intro q hq
      rcases List.mem_append.mp hq with hq | hq
      · exact hm q hq
      · have hq2 : q = (s.id, idx) := by simpa using hq
        rw [hq2]
        exact hl s (List.mem_cons_self _ _)

theorem renewalsLoop_take (sIds : List String) (rest : List RenewalRecord) :
    ∀ (heap : List Student) (m : List (String × Nat)) (n : Nat),
      (∀ p ∈ m, p.2 < n → p.1 ∈ sIds) → (∀ r2 ∈ rest, r2.id ∉ sIds) →
      n ≤ heap.length →
      (renewalsLoop rest heap m).1.take n = heap.take n := by
  induction rest with
  | nil => intro heap m n _ _ _; rfl
  | cons r rest ih =>
    intro heap m n hm hdisj hn
    rw [renewalsLoop_cons]
    split
    · rename_i j hl
      have hmem := lookupIdx_mem _ _ _ hl
      have hjn : n ≤ j := by
        by_contra hc
        exact hdisj r (List.mem_cons_self _ _) (hm _ hmem (by omega))
      rw [ih _ m n hm (fun r2 h2 => hdisj r2 (List.mem_cons_of_mem _ h2))
        (by simpa using hn)]
      exact listTake_set_ge _ _ _ _ hjn
    · rw [ih _ _ n ?_ (fun r2 h2 => hdisj r2 (List.mem_cons_of_mem _ h2))
        (by simp; omega)]
      · exact listTake_append_left _ _ _ hn
      · intro p hp hpn
        rcases List.mem_append.mp hp with hp | hp
        · exact hm p hp hpn
        · have hp2 : p = (r.id, heap.length) := by simpa using hp
          rw [hp2] at hpn
          omega

/-- Claim C2 counterexample: calculateUnifiedMetrics mutates the record of the
input array (a matching renewal is pushed into its renewalDates), and calling
it again over that array yields a different churned count: 1 then 0. -/
theorem c2_counterexample :
    (UnifiedDataProcessor.calculateUnifiedMetrics [c2Student] [c2Renewal] exRange exNow).1.churnedStudents = 1 ∧
      (UnifiedDataProcessor.calculateUnifiedMetrics
        ((UnifiedDataProcessor.calculateUnifiedMetrics [c2Student] [c2Renewal] exRange exNow).2)
        [c2Renewal] exRange exNow).1.churnedStudents = 0 ∧
      (UnifiedDataProcessor.calculateUnifiedMetrics [c2Student] [c2Renewal] exRange exNow).2 ≠
        [c2Student] := by
  refine ⟨?_, ?_, ?_⟩
  · rw [calcMetrics_churnedStudents]
    decide
  · rw [calcMetrics_churnedStudents]
    decide
  · rw [calcMetrics_snd]
    decide

/-- Claim C2 amended: when no renewal record shares an id with any student
record, calculateUnifiedMetrics leaves the input student array unchanged and
calling it twice with the same inputs yields identical metrics; with matching
ids the student records can be mutated (see the counterexample). -/
theorem c2_amended (students : List Student) (renewals : List RenewalRecord)
    (dr : DateRange) (now : Nat)
    (h : ∀ r ∈ renewals, ∀ s ∈ students, r.id ≠ s.id) :
    (UnifiedDataProcessor.calculateUnifiedMetrics students renewals dr now).2 = students ∧
      (UnifiedDataProcessor.calculateUnifiedMetrics
          ((UnifiedDataProcessor.calculateUnifiedMetrics students renewals dr now).2)
          renewals dr now).1 =
        (UnifiedDataProcessor.calculateUnifiedMetrics students renewals dr now).1 := by
  have hsnd : (UnifiedDataProcessor.calculateUnifiedMetrics students renewals dr now).2 = students := by
    rw [calcMetrics_snd]
    show (renewalsLoop renewals students (studentsLoop students students 0 [])).1.take
      students.length = students
    rw [renewalsLoop_take (students.map Student.id) renewals students
      (studentsLoop students students 0 []) students.length ?_ ?_ (Nat.le_refl _)]
    · exact List.take_length students
    · intro p hp _
      exact studentsLoop_keys students (students.map Student.id) students 0 []
        (by intro q hq; simp at hq) (fun s2 hs2 => List.mem_map_of_mem _ hs2) p hp
    · intro r2 hr2 hmem
      obtain ⟨s2, hs2, hid⟩ := List.mem_map.mp hmem
      exact h r2 hr2 s2 hs2 hid.symm
  exact ⟨hsnd, by rw [hsnd]⟩

/-- Claim C2 witness: disjoint ids at concrete inputs. -/
theorem c2_witness :
    (UnifiedDataProcessor.calculateUnifiedMetrics [c8Student] [c7Renewal] exRange exNow).2 = [c8Student] :=
  (c2_amended [c8Student] [c7Renewal] exRange exNow (by decide)).1

theorem renewalsLoop_append (l1 l2 : List RenewalRecord) :
    ∀ (heap : List Student) (m : List (String × Nat)),
      renewalsLoop (l1 ++ l2) heap m =
        renewalsLoop l2 (renewalsLoop l1 heap m).1 (renewalsLoop l1 heap m).2 := by
  induction l1 with
  | nil => intro heap m; rfl
  | cons r l1 ih =>
    intro heap m
    cases hl : lookupIdx m r.id with
    | some j =>
      simp only [List.cons_append, renewalsLoop_cons, hl]
      exact ih _ _
    | none =>
      simp only [List.cons_append, renewalsLoop_cons, hl]
      exact ih _ _

theorem renewalsLoop_ltv_pres (rest : List RenewalRecord) :
    ∀ (heap : List Student) (m : List (String × Nat)) (j : Nat) (rid : String),
      InvHM heap m → lookupIdx m rid = some j →
      hasLTVPackage ((heap.getD j dummyStudent).package) = true →
      lookupIdx (renewalsLoop rest heap m).2 rid = some j ∧
        hasLTVPackage (((renewalsLoop rest heap m).1.getD j dummyStudent).package) = true ∧
        InvHM (renewalsLoop rest heap m).1 (renewalsLoop rest heap m).2 := by
  induction rest with
  | nil => intro heap m j rid hInv hl hltv; exact ⟨hl, hltv, hInv⟩
  | cons r2 rest ih =>
    intro heap m j rid hInv hl hltv
    rw [renewalsLoop_cons]
    split
    · rename_i j2 hl2
      have hmem2 := lookupIdx_mem _ _ _ hl2
      obtain ⟨hj2len, _⟩ := hInv _ hmem2
      refine ih _ _ _ _ (invHM_set _ _ _ _ hInv (renewUpdate_id _ _)) hl ?_
      by_cases hjj : j2 = j
      · subst hjj
        rw [listGetD_set_eq _ _ _ _ hj2len, renewUpdate_package]
        split
        · assumption
        · exact hltv
      · rw [listGetD_set_ne _ _ _ _ _ hjj]
        exact hltv
    · have hmem := lookupIdx_mem _ _ _ hl
      obtain ⟨hjlen, _⟩ := hInv _ hmem
      refine ih _ _ _ _ (invHM_append_synth _ _ _ hInv)
        (lookupIdx_append_some _ _ _ _ hl) ?_
      rw [listGetD_append_left _ _ _ _ hjlen]
      exact hltv

theorem renewalsLoop_untouched (rest : List RenewalRecord) :
    ∀ (heap : List Student) (m : List (String × Nat)) (j : Nat) (key : String),
      InvHM heap m → lookupIdx m key = some j →
      (∀ r2 ∈ rest, r2.id ≠ key) →
      lookupIdx (renewalsLoop rest heap m).2 key = some j ∧
        (renewalsLoop rest heap m).1.getD j dummyStudent = heap.getD j dummyStudent ∧
        InvHM (renewalsLoop rest heap m).1 (renewalsLoop rest heap m).2 := by
  induction rest with
  | nil => intro heap m j key hInv hl _; exact ⟨hl, rfl, hInv⟩
  | cons r2 rest ih =>
    intro heap m j key hInv hl hrest
    rw [renewalsLoop_cons]
    split
    · rename_i j2 hl2
      have hmem2 := lookupIdx_mem _ _ _ hl2
      obtain ⟨hj2len, hid2⟩ := hInv _ hmem2
      have hmem := lookupIdx_mem _ _ _ hl
      obtain ⟨hjlen, hid⟩ := hInv _ hmem
      have hjj : j2 ≠ j := by
        intro hc
        apply hrest r2 (List.mem_cons_self _ _)
        have ha : (heap.getD j2 dummyStudent).id = r2.id := by simpa using hid2
        have hb : (heap.getD j dummyStudent).id = key := by simpa using hid
        rw [← ha, hc, hb]
      obtain ⟨ih1, ih2, ih3⟩ := ih _ m j key
        (invHM_set _ _ _ _ hInv (renewUpdate_id _ _)) hl
        (fun r3 h3 => hrest r3 (List.mem_cons_of_mem _ h3))
      refine ⟨ih1, ?_, ih3⟩
      rw [ih2, listGetD_set_ne _ _ _ _ _ hjj]
    · have hmem := lookupIdx_mem _ _ _ hl
      obtain ⟨hjlen, _⟩ := hInv _ hmem
      obtain ⟨ih1, ih2, ih3⟩ := ih _ _ j key
        (invHM_append_synth _ _ _ hInv) (lookupIdx_append_some _ _ _ _ hl)
        (fun r3 h3 => hrest r3 (List.mem_cons_of_mem _ h3))
      refine ⟨ih1, ?_, ih3⟩
      rw [ih2, listGetD_append_left _ _ _ _ hjlen]

theorem lookupIdx_studentsLoop_none (all : List Student) (l : List Student) :
    ∀ (idx : Nat) (m : List (String × Nat)) (k : String),
      lookupIdx m k = none → (∀ s2 ∈ l, s2.id ≠ k) →
      lookupIdx (studentsLoop all l idx m) k = none := by
  induction l with
  | nil => intro idx m k hm _; exact hm
  | cons s rest ih =>
    intro idx m k hm hl
    rw [studentsLoop_cons]
    refine ih (idx + 1) _ k ?_ (fun s2 h2 => hl s2 (List.mem_cons_of_mem _ h2))
    have hsk : s.id ≠ k := hl s (List.mem_cons_self _ _)
    split
    · split
      · rw [lookupIdx_alistReplace_ne _ _ _ _ hsk]
        exact hm
      · exact hm
    · rw [lookupIdx_append_none _ _ _ hm]
      simp only [lookupIdx, if_neg hsk]

theorem activeFilter_of_ltv (d : Nat) (s : Student)
    (h : hasLTVPackage s.package = true) : activeFilter d s = true := by
  unfold activeFilter
  cases s.endDate <;> simp [h]

theorem mem_active_of_map_entry (students : List Student)
    (renewals : List RenewalRecord) (date : Nat) (j : Nat) (rid : String)
    (hlook : lookupIdx (buildStudentMap students renewals).2 rid = some j)
    (hInv : InvHM (buildStudentMap students renewals).1 (buildStudentMap students renewals).2)
    (hact : activeFilter date
      ((buildStudentMap students renewals).1.getD j dummyStudent) = true) :
    ∃ x ∈ (getActiveStudentsAtDate students renewals date).1,
      x.studentId = rid ∧
        x.toStudent = (buildStudentMap students renewals).1.getD j dummyStudent := by
  have hmem := lookupIdx_mem _ _ _ hlook
  obtain ⟨hlen, hid⟩ := hInv _ hmem
  have hmv : (buildStudentMap students renewals).1.getD j dummyStudent ∈
      mapValues (buildStudentMap students renewals).1 (buildStudentMap students renewals).2 :=
    List.mem_map.mpr ⟨(rid, j), hmem, rfl⟩
  have hfil : (buildStudentMap students renewals).1.getD j dummyStudent ∈
      (mapValues (buildStudentMap students renewals).1
        (buildStudentMap students renewals).2).filter (activeFilter date) :=
    List.mem_filter.mpr ⟨hmv, hact⟩
  refine ⟨{ toStudent := (buildStudentMap students renewals).1.getD j dummyStudent,
            lifetimeValue := ((buildStudentMap students renewals).1.getD j dummyStudent).fees.getD 0,
            studentId := ((buildStudentMap students renewals).1.getD j dummyStudent).id },
    ?_, ?_, rfl⟩
  · show _ ∈ getStudentsWithLTV _
    exact List.mem_map_of_mem _ hfil
  · exact hid

theorem lookupIdx_renewalsLoop_none (rest : List RenewalRecord) :
    ∀ (heap : List Student) (m : List (String × Nat)) (k : String),
      lookupIdx m k = none → (∀ r2 ∈ rest, r2.id ≠ k) →
      lookupIdx (renewalsLoop rest heap m).2 k = none := by
  induction rest with
  | nil => intro heap m k hm _; exact hm
  | cons r2 rest ih =>
    intro heap m k hm hrest
    rw [renewalsLoop_cons]
    split
    · exact ih _ _ _ hm (fun r3 h3 => hrest r3 (List.mem_cons_of_mem _ h3))
    · refine ih _ _ _ ?_ (fun r3 h3 => hrest r3 (List.mem_cons_of_mem _ h3))
      rw [lookupIdx_append_none _ _ _ hm]
      simp only [lookupIdx, if_neg (hrest r2 (List.mem_cons_self _ _))]

/-- Claim C5 counterexample: two records of one person where only the later
one carries the LTV marker; after mergeStudentRecords the marker is lost and,
the end date being expired with no renewal, the student is not active. -/
theorem c5_counterexample :
    UnifiedDataProcessor.getBaseId c5A.id = UnifiedDataProcessor.getBaseId c5B.id ∧
      hasLTVPackage c5B.package = true ∧
      hasLTVPackage (((UnifiedDataProcessor.mergeStudentRecords [c5A, c5B]).map
        Student.package).headD none) = false ∧
      (UnifiedDataProcessor.getActiveStudentsAtDate
        (UnifiedDataProcessor.mergeStudentRecords [c5A, c5B]) [] exNow).1 = [] := by
  refine ⟨by decide, by decide, by decide, by decide⟩

/-- Claim C5 amended: the lifetime marker is sticky along the renewal-merge
path: whenever any renewal record carries the LTV marker, the student map
entry for its id keeps the marker and the student is counted active at every
reference date. The enrollment-merge path of mergeStudentRecords, however,
keeps only the package of the first record (see the counterexample). -/
theorem c5_amended (students : List Student) (renewals : List RenewalRecord)
    (r : RenewalRecord) (date : Nat) (hr : r ∈ renewals)
    (hltv : hasLTVPackage r.package = true) :
    ∃ x ∈ (UnifiedDataProcessor.getActiveStudentsAtDate students renewals date).1,
      x.studentId = r.id ∧ hasLTVPackage x.toStudent.package = true := by
  obtain ⟨pre, post, rfl⟩ := List.append_of_mem hr
  have hInv0 : InvHM students (studentsLoop students students 0 []) :=
    invHM_studentsLoop students students 0 [] rfl
      (fun p hp => absurd hp (List.not_mem_nil p))
  have hInv1 := invHM_renewalsLoop pre students _ hInv0
  have hbm : buildStudentMap students (pre ++ r :: post) =
      renewalsLoop (r :: post)
        (renewalsLoop pre students (studentsLoop students students 0 [])).1
        (renewalsLoop pre students (studentsLoop students students 0 [])).2 := by
    unfold buildStudentMap
    exact renewalsLoop_append pre (r :: post) _ _
  cases hl1 : lookupIdx
      (renewalsLoop pre students (studentsLoop students students 0 [])).2 r.id with
  | some j =>
    obtain ⟨hjlen, _⟩ := hInv1 _ (lookupIdx_mem _ _ _ hl1)
    have hstep : renewalsLoop (r :: post)
        (renewalsLoop pre students (studentsLoop students students 0 [])).1
        (renewalsLoop pre students (studentsLoop students students 0 [])).2 =
      renewalsLoop post
        ((renewalsLoop pre students (studentsLoop students students 0 [])).1.set j
          (renewUpdate ((renewalsLoop pre students (studentsLoop students students 0 [])).1.getD j dummyStudent) r))
        (renewalsLoop pre students (studentsLoop students students 0 [])).2 := by
      rw [renewalsLoop_cons, hl1]
    have hltv2 : hasLTVPackage
        ((((renewalsLoop pre students (studentsLoop students students 0 [])).1.set j
          (renewUpdate ((renewalsLoop pre students (studentsLoop students students 0 [])).1.getD j dummyStudent) r)).getD j
          dummyStudent).package) = true := by
      rw [listGetD_set_eq _ _ _ _ hjlen, renewUpdate_package, if_pos hltv]
      exact hltv
    obtain ⟨hlook, hltvF, hInvF⟩ := renewalsLoop_ltv_pres post _ _ j r.id
      (invHM_set _ _ _ _ hInv1 (renewUpdate_id _ _)) hl1 hltv2
    have hlookB : lookupIdx (buildStudentMap students (pre ++ r :: post)).2 r.id = some j := by
      rw [hbm, hstep]
      exact hlook
    have hInvB : InvHM (buildStudentMap students (pre ++ r :: post)).1
        (buildStudentMap students (pre ++ r :: post)).2 := by
      rw [hbm, hstep]
      exact hInvF
    have hactB : activeFilter date
        ((buildStudentMap students (pre ++ r :: post)).1.getD j dummyStudent) = true := by
      rw [hbm, hstep]
      exact activeFilter_of_ltv _ _ hltvF
    obtain ⟨x, hxmem, hxid, hxstu⟩ :=
      mem_active_of_map_entry students (pre ++ r :: post) date j r.id hlookB hInvB hactB
    refine ⟨x, hxmem, hxid, ?_⟩
    rw [hxstu, hbm, hstep]
    exact hltvF
  | none =>
    have hstep : renewalsLoop (r :: post)
        (renewalsLoop pre students (studentsLoop students students 0 [])).1
        (renewalsLoop pre students (studentsLoop students students 0 [])).2 =
      renewalsLoop post
        ((renewalsLoop pre students (studentsLoop students students 0 [])).1 ++ [synthStudent r])
        ((renewalsLoop pre students (studentsLoop students students 0 [])).2 ++
          [(r.id, (renewalsLoop pre students (studentsLoop students students 0 [])).1.length)]) := by
      rw [renewalsLoop_cons, hl1]
    have hlook2 : lookupIdx
        ((renewalsLoop pre students (studentsLoop students students 0 [])).2 ++
          [(r.id, (renewalsLoop pre students (studentsLoop students students 0 [])).1.length)]) r.id =
        some (renewalsLoop pre students (studentsLoop students students 0 [])).1.length := by
      rw [lookupIdx_append_none _ _ _ hl1]
      simp [lookupIdx]
    have hltv2 : hasLTVPackage
        ((((renewalsLoop pre students (studentsLoop students students 0 [])).1 ++ [synthStudent r]).getD
          (renewalsLoop pre students (studentsLoop students students 0 [])).1.length
          dummyStudent).package) = true := by
      rw [listGetD_append_len]
      exact hltv
    obtain ⟨hlook, hltvF, hInvF⟩ := renewalsLoop_ltv_pres post _ _ _ r.id
      (invHM_append_synth _ _ _ hInv1) hlook2 hltv2
    have hlookB : lookupIdx (buildStudentMap students (pre ++ r :: post)).2 r.id =
        some (renewalsLoop pre students (studentsLoop students students 0 [])).1.length := by
      rw [hbm, hstep]
      exact hlook
    have hInvB : InvHM (buildStudentMap students (pre ++ r :: post)).1
        (buildStudentMap students (pre ++ r :: post)).2 := by
      rw [hbm, hstep]
      exact hInvF
    have hactB : activeFilter date
        ((buildStudentMap students (pre ++ r :: post)).1.getD
          (renewalsLoop pre students (studentsLoop students students 0 [])).1.length
          dummyStudent) = true := by
      rw [hbm, hstep]
      exact activeFilter_of_ltv _ _ hltvF
    obtain ⟨x, hxmem, hxid, hxstu⟩ :=
      mem_active_of_map_entry students (pre ++ r :: post) date _ r.id hlookB hInvB hactB
    refine ⟨x, hxmem, hxid, ?_⟩
    rw [hxstu, hbm, hstep]
    exact hltvF

/-- Claim C5 witness: a lone LTV renewal produces an active student with the
marker, at the concrete date. -/
theorem c5_witness :
    ∃ x ∈ (UnifiedDataProcessor.getActiveStudentsAtDate [] [c5Renewal] exNow).1,
      x.studentId = c5Renewal.id ∧ hasLTVPackage x.toStudent.package = true :=
  c5_amended [] [c5Renewal] c5Renewal exNow (List.mem_singleton.mpr rfl) (by decide)

/-- Claim C7 counterexample: an unmatched renewal with fees 100 inside the
range is counted among renewals and in the active population, but contributes
nothing to the aggregated lifetimeValue (revenue). -/
theorem c7_counterexample :
    c7Renewal.fees = 100 ∧
      (UnifiedDataProcessor.calculateUnifiedMetrics [] [c7Renewal] c7Range exNow).1.lifetimeValue = 0 ∧
      (UnifiedDataProcessor.calculateUnifiedMetrics [] [c7Renewal] c7Range exNow).1.renewedStudents = 1 ∧
      (UnifiedDataProcessor.getActiveStudentsAtDate [] [c7Renewal]
        (normalizeStart c7Range.startDate)).1.length = 1 := by
  refine ⟨rfl, rfl, ?_, ?_⟩
  · rw [calcMetrics_renewedStudents]
    decide
  · decide

/-- Claim C7 amended: an unmatched renewal is not discarded: buildStudentMap
synthesizes a standalone student for it, whose enrollmentDate is the renewal
date (surrogate), and that student enters the unique-student population (and
the active list whenever the activity filter accepts it); its fees, however,
do not reach the aggregated lifetimeValue (see the counterexample). -/
theorem c7_amended (students : List Student) (pre post : List RenewalRecord)
    (r : RenewalRecord) (date : Nat)
    (hs : ∀ s ∈ students, s.id ≠ r.id)
    (hpre : ∀ r2 ∈ pre, r2.id ≠ r.id) (hpost : ∀ r2 ∈ post, r2.id ≠ r.id) :
    (synthStudent r).enrollmentDate = r.renewalDate.getD 0 ∧
      synthStudent r ∈ mapValues (buildStudentMap students (pre ++ r :: post)).1
        (buildStudentMap students (pre ++ r :: post)).2 ∧
      (activeFilter date (synthStudent r) = true →
        ∃ x ∈ (UnifiedDataProcessor.getActiveStudentsAtDate students (pre ++ r :: post) date).1,
          x.toStudent = synthStudent r) := by
  have hInv0 : InvHM students (studentsLoop students students 0 []) :=
    invHM_studentsLoop students students 0 [] rfl
      (fun p hp => absurd hp (List.not_mem_nil p))
  have hl0 : lookupIdx (studentsLoop students students 0 []) r.id = none :=
    lookupIdx_studentsLoop_none students students 0 [] r.id rfl hs
  have hInv1 := invHM_renewalsLoop pre students _ hInv0
  have hl1 : lookupIdx
      (renewalsLoop pre students (studentsLoop students students 0 [])).2 r.id = none :=
    lookupIdx_renewalsLoop_none pre students _ r.id hl0 hpre
  have hbm : buildStudentMap students (pre ++ r :: post) =
      renewalsLoop (r :: post)
        (renewalsLoop pre students (studentsLoop students students 0 [])).1
        (renewalsLoop pre students (studentsLoop students students 0 [])).2 := by
    unfold buildStudentMap
    exact renewalsLoop_append pre (r :: post) _ _
  have hstep : renewalsLoop (r :: post)
      (renewalsLoop pre students (studentsLoop students students 0 [])).1
      (renewalsLoop pre students (studentsLoop students students 0 [])).2 =
    renewalsLoop post
      ((renewalsLoop pre students (studentsLoop students students 0 [])).1 ++ [synthStudent r])
      ((renewalsLoop pre students (studentsLoop students students 0 [])).2 ++
        [(r.id, (renewalsLoop pre students (studentsLoop students students 0 [])).1.length)]) := by
    rw [renewalsLoop_cons, hl1]
  have hlook2 : lookupIdx
      ((renewalsLoop pre students (studentsLoop students students 0 [])).2 ++
        [(r.id, (renewalsLoop pre students (studentsLoop students students 0 [])).1.length)]) r.id =
      some (renewalsLoop pre students (studentsLoop students students 0 [])).1.length := by
    rw [lookupIdx_append_none _ _ _ hl1]
    simp [lookupIdx]
  obtain ⟨hlookF, hgetF, hInvF⟩ := renewalsLoop_untouched post _ _
    (renewalsLoop pre students (studentsLoop students students 0 [])).1.length r.id
    (invHM_append_synth _ _ _ hInv1) hlook2 hpost
  have hget2 : ((renewalsLoop pre students (studentsLoop students students 0 [])).1 ++
      [synthStudent r]).getD
      (renewalsLoop pre students (studentsLoop students students 0 [])).1.length
      dummyStudent = synthStudent r := listGetD_append_len _ _ _
  refine ⟨rfl, ?_, ?_⟩
  · refine List.mem_map.mpr
      ⟨(r.id, (renewalsLoop pre students (studentsLoop students students 0 [])).1.length), ?_, ?_⟩
    · rw [hbm, hstep]
      exact lookupIdx_mem _ _ _ hlookF
    · show (buildStudentMap students (pre ++ r :: post)).1.getD _ dummyStudent = _
      rw [hbm, hstep, hgetF, hget2]
  · intro hact
    have hlookB : lookupIdx (buildStudentMap students (pre ++ r :: post)).2 r.id =
        some (renewalsLoop pre students (studentsLoop students students 0 [])).1.length := by
      rw [hbm, hstep]
      exact hlookF
    have hInvB : InvHM (buildStudentMap students (pre ++ r :: post)).1
        (buildStudentMap students (pre ++ r :: post)).2 := by
      rw [hbm, hstep]
      exact hInvF
    have hactB : activeFilter date
        ((buildStudentMap students (pre ++ r :: post)).1.getD
          (renewalsLoop pre students (studentsLoop students students 0 [])).1.length
          dummyStudent) = true := by
      rw [hbm, hstep, hgetF, hget2]
      exact hact
    obtain ⟨x, hxmem, _, hxstu⟩ := mem_active_of_map_entry students (pre ++ r :: post)
      date _ r.id hlookB hInvB hactB
    refine ⟨x, hxmem, ?_⟩
    rw [hxstu, hbm, hstep, hgetF, hget2]

/-- Claim C7 witness: the unmatched concrete renewal becomes a synthetic
student present in the map and in the active list at the range start. -/
theorem c7_witness :
    synthStudent c7Renewal ∈
      mapValues (buildStudentMap [] ([] ++ c7Renewal :: [])).1
        (buildStudentMap [] ([] ++ c7Renewal :: [])).2 ∧
      ∃ x ∈ (UnifiedDataProcessor.getActiveStudentsAtDate [] ([] ++ c7Renewal :: [])
          (normalizeStart c7Range.startDate)).1,
        x.toStudent = synthStudent c7Renewal := by
  have h := c7_amended [] [] [] c7Renewal (normalizeStart c7Range.startDate)
    (fun s hs => absurd hs (List.not_mem_nil s))
    (fun r2 h2 => absurd h2 (List.not_mem_nil r2))
    (fun r2 h2 => absurd h2 (List.not_mem_nil r2))
  exact ⟨h.2.1, h.2.2 (by decide)⟩
